import Mathlib

/-!
# Food ordering backend (`backend/server.js`)

A shallow embedding of the request handlers of `backend/server.js` and
theorems about order validation, order creation, status updates, deletion
and statistics.

Modelling conventions.

* A JavaScript string is a Lean `String`; the handlers work on its list of
  characters.  `length` counts UTF-16 code units as JavaScript does.
* A JavaScript number is a double.  The numbers the handlers compute with
  have integer values, so a number is a `JsNum`: `NaN`, an infinity, or a
  finite number given by its integer value.  `toDouble` rounds an integer to
  the nearest double, ties to even, and to an infinity from `2 ^ 1024` on;
  sums and products are the exact results rounded that way, as IEEE 754
  prescribes.  Negative zero is not told apart from zero.
* A field of a JSON request body is a `JsVal`.
* The two JSON documents are lists of records.  A record of `orders.json` is
  what `JSON.stringify` writes, so a number that is `NaN` or infinite is
  `null` there.  Reading yields the list, writing either replaces it or
  fails (`writeOk = false`), in which case the document keeps its contents.
  Numeric fields of stored records have integer values, as in the data model.
* The clock (`Date.now()`, `new Date().toISOString()`) is an argument.
-/

namespace Food

/-! ## JavaScript numbers -/

/-- The number of binary digits of `m`, counted with `fuel` steps. -/
def bitLengthAux : Nat → Nat → Nat
  | 0, _ => 0
  | fuel + 1, m => if m = 0 then 0 else bitLengthAux fuel (m / 2) + 1

/-- The number of binary digits of `m`. -/
def bitLength (m : Nat) : Nat := bitLengthAux m m

/-- The natural number with at most 53 significant binary digits nearest to
`m`, the even one of two that are equally near. -/
def roundNat (m : Nat) : Nat :=
  if m < 2 ^ 53 then m
  else
    let shift := bitLength m - 53
    let q := m >>> shift
    let r := m % (1 <<< shift)
    let half := 1 <<< (shift - 1)
    if half < r ∨ (r = half ∧ q % 2 = 1) then (q + 1) <<< shift else q <<< shift

/-- A JavaScript number with an integer value, an infinity or `NaN`. -/
inductive JsNum where
  | nan
  | inf (negative : Bool)
  | fin (n : Int)
  deriving DecidableEq, Repr

/-- The double nearest to the integer `x`. -/
def toDouble (x : Int) : JsNum :=
  let m := roundNat x.natAbs
  if 1 <<< 1024 ≤ m then .inf (decide (x < 0))
  else .fin (if x < 0 then -(m : Int) else (m : Int))

/-- JavaScript `a * b`. -/
def jsMul : JsNum → JsNum → JsNum
  | .fin a, .fin b => toDouble (a * b)
  | .nan, _ => .nan
  | _, .nan => .nan
  | .inf s, .fin b => if b = 0 then .nan else .inf (xor s (decide (b < 0)))
  | .fin a, .inf s => if a = 0 then .nan else .inf (xor s (decide (a < 0)))
  | .inf s, .inf t => .inf (xor s t)

/-- JavaScript `a + b`. -/
def jsAdd : JsNum → JsNum → JsNum
  | .fin a, .fin b => toDouble (a + b)
  | .nan, _ => .nan
  | _, .nan => .nan
  | .inf s, .fin _ => .inf s
  | .fin _, .inf s => .inf s
  | .inf s, .inf t => if s = t then .inf s else .nan

/-- What `JSON.stringify` writes for a number: `null` for `NaN` and the infinities. -/
def jsonNumber : JsNum → Option Int
  | .fin n => some n
  | _ => none

/-- JavaScript `ToNumber` of a stored numeric field: `null` counts as 0. -/
def toNumber : Option Int → JsNum
  | some n => .fin n
  | none => .fin 0

/-! ## JavaScript values -/

/-- A field of a parsed JSON body.

* `num n` is a number whose value is an integer below `2 ^ 53` in magnitude,
  however the JSON text writes it; `String` prints it in plain digits.
* `other text` is any other JSON value: a number whose value is not such an
  integer, an array or an object.  It is truthy and strictly equal to no
  string.  `text` is what `String` yields for it (`"2.5"` for `2.5`,
  `"1e+21"` for `1e21`, `"1,2"` for `[1, 2]`, `"[object Object]"` for a plain
  object), and `none` when `String` throws a `TypeError`, as for an object
  whose own `toString` is not a function. -/
inductive JsVal where
  | undefined
  | null
  | bool (b : Bool)
  | num (n : Int) (safe : n.natAbs < 2 ^ 53)
  | str (s : String)
  | other (text : Option String)
  deriving DecidableEq, Repr

/-- JavaScript `ToBoolean`: `undefined`, `null`, `false`, `0` and `""` are falsy. -/
def truthy : JsVal → Bool
  | .undefined => false
  | .null => false
  | .bool b => b
  | .num n _ => n != 0
  | .str s => !s.data.isEmpty
  | .other _ => true

/-- JavaScript `a || b`. -/
def jsOr (a b : JsVal) : JsVal := if truthy a then a else b

/-- Decimal digits of a natural number, most significant first. -/
def natDigits (n : Nat) : List Char := (Nat.toDigits 10 n)

/-- JavaScript `String(v)`; `none` when the conversion throws. -/
def jsString : JsVal → Option (List Char)
  | .undefined => some "undefined".data
  | .null => some "null".data
  | .bool true => some "true".data
  | .bool false => some "false".data
  | .num (Int.ofNat n) _ => some (natDigits n)
  | .num (Int.negSucc n) _ => some ('-' :: natDigits (n + 1))
  | .str s => some s.data
  | .other text => text.map fun t => t.data

/-- JavaScript white space and line terminators: what `trim`, `\s` and
`parseInt` treat as blank. -/
def isJsSpace (c : Char) : Bool :=
  let n := c.toNat
  n == 0x09 || n == 0x0A || n == 0x0B || n == 0x0C || n == 0x0D || n == 0x20 ||
  n == 0xA0 || n == 0x1680 || (0x2000 ≤ n && n ≤ 0x200A) || n == 0x2028 ||
  n == 0x2029 || n == 0x202F || n == 0x205F || n == 0x3000 || n == 0xFEFF

/-- Leading blanks removed. -/
def trimStart (cs : List Char) : List Char := cs.dropWhile isJsSpace

/-- Trailing blanks removed. -/
def trimEnd (cs : List Char) : List Char := (cs.reverse.dropWhile isJsSpace).reverse

/-- JavaScript `String.prototype.trim`. -/
def trim (cs : List Char) : List Char := trimEnd (trimStart cs)

/-- JavaScript `String.prototype.length`: the number of UTF-16 code units. -/
def jsLength (cs : List Char) : Nat :=
  (cs.map fun c => if 0x10000 ≤ c.toNat then 2 else 1).sum

/-- Value of a character as a digit in some radix up to 36, if it is one. -/
def digitValue (c : Char) : Option Nat :=
  let n := c.toNat
  if 0x30 ≤ n ∧ n ≤ 0x39 then some (n - 0x30)
  else if 0x61 ≤ n ∧ n ≤ 0x7A then some (n - 0x61 + 10)
  else if 0x41 ≤ n ∧ n ≤ 0x5A then some (n - 0x41 + 10)
  else none

/-- Whether a character is a digit of radix `r`. -/
def isRadixDigit (r : Nat) (c : Char) : Bool :=
  match digitValue c with
  | some d => d < r
  | none => false

/-- Value of a digit string in radix `r`. -/
def radixValue (r : Nat) (cs : List Char) : Nat :=
  cs.foldl (fun acc c => acc * r + (digitValue c).getD 0) 0

/-- Whether a string starts with `0x` or `0X`. -/
def hasHexPrefix : List Char → Bool
  | '0' :: 'x' :: _ => true
  | '0' :: 'X' :: _ => true
  | _ => false

/-- JavaScript `parseInt(string, radix)` on an already converted string;
`radix = 0` is the call without a radix.  The digits read are rounded to a
double. -/
def parseInt (input : List Char) (radix : Nat) : JsNum :=
  let s := trimStart input
  let neg := s.head? == some '-'
  let s := if s.head? == some '-' || s.head? == some '+' then s.drop 1 else s
  if radix != 0 && (radix < 2 || 36 < radix) then .nan
  else
    let stripPrefix := radix == 0 || radix == 16
    let r := if radix == 0 then 10 else radix
    let strip := stripPrefix && hasHexPrefix s
    let s := if strip then s.drop 2 else s
    let r := if strip then 16 else r
    let z := s.takeWhile (isRadixDigit r)
    if z.isEmpty then .nan
    else
      let v : Int := radixValue r z
      toDouble (if neg then -v else v)

/-- Membership in the character class `[0-9]`. -/
def isAsciiDigit (c : Char) : Bool := 0x30 ≤ c.toNat && c.toNat ≤ 0x39

/-- Membership in the character class `[A-Za-z\s]`. -/
def isLetterOrSpace (c : Char) : Bool :=
  (0x41 ≤ c.toNat && c.toNat ≤ 0x5A) || (0x61 ≤ c.toNat && c.toNat ≤ 0x7A) || isJsSpace c

/-- Matching of a regular expression `^[cls]+$` (no flags) against a whole string. -/
def testAnchoredPlus (cls : Char → Bool) : List Char → Bool
  | [] => false
  | c :: cs => cls c && (cs.isEmpty || testAnchoredPlus cls cs)

/-- The call `nameRegex.test(s)` with `nameRegex = /^[A-Za-z\s]+$/`. -/
def nameRegexTest (s : List Char) : Bool := testAnchoredPlus isLetterOrSpace s

/-- The call `s.replace(/[cls]/g, '')`: every character of the class is dropped. -/
def replaceAllWithEmpty (cls : Char → Bool) (s : List Char) : List Char :=
  s.filter fun c => !cls c

/-! ## Data model -/

/-- A record of `menu.json`. -/
structure MenuItem where
  id : Int
  name : String
  price : Int
  image : String
  description : String
  deriving DecidableEq, Repr

/-- A record of `orders.json`, as `JSON.stringify` writes it: `quantity` and
`totalPrice` are `none` for `null`. -/
structure Order where
  id : Int
  item : JsVal
  itemId : Int
  quantity : Option Int
  price : Int
  totalPrice : Option Int
  customerName : JsVal
  customerPhone : JsVal
  deliveryAddress : JsVal
  paymentMethod : JsVal
  status : JsVal
  createdAt : String
  updatedAt : String
  deriving DecidableEq, Repr

/-- The fields the order handler destructures from `req.body`. -/
structure OrderBody where
  item : JsVal
  quantity : JsVal
  name : JsVal
  phone : JsVal
  address : JsVal
  payment : JsVal
  deriving DecidableEq, Repr

/-- What a handler answers: `res.status(status).json(...)` with a `data`
payload on success and an `error` text on failure. -/
inductive Reply (α : Type) where
  | ok (status : Nat) (data : α)
  | fail (status : Nat) (error : String)
  deriving DecidableEq, Repr

/-- The menu written at first start. -/
def initialMenu : List MenuItem :=
  [ { id := 1, name := "Pizza", price := 1200,
      image := "https://images.unsplash.com/photo-1513104890138-7c749659a591?w=400&h=300&fit=crop",
      description := "Delicious pizza with fresh ingredients" },
    { id := 2, name := "Burger", price := 600,
      image := "https://images.unsplash.com/photo-1568901346375-23c9450c58cd?w=400&h=300&fit=crop",
      description := "Juicy burger with special sauce" },
    { id := 3, name := "Pasta", price := 900,
      image := "https://images.unsplash.com/photo-1621996346565-e3dbc646d9a9?w=400&h=300&fit=crop",
      description := "Creamy pasta with authentic flavors" } ]

/-! ## Order creation: `app.post('/api/orders')` -/

/-- How the validation part of the handler ends: all checks passed, a check
refused the request (a 400 reply with that text), or a conversion threw and
the `catch` of the handler takes over. -/
inductive Checked (α : Type) where
  | passed (value : α)
  | refused (error : String)
  | threw
  deriving DecidableEq, Repr

/-- The validation part of the handler, up to the address check.  When it
passes it yields the menu item found and the parsed quantity `qty`, with
which the order is then built. -/
def validateOrder (body : OrderBody) (menu : List MenuItem) : Checked (MenuItem × Int) :=
  if !truthy body.item || !truthy body.quantity || !truthy body.name ||
      !truthy body.phone || !truthy body.address || !truthy body.payment then
    .refused "All fields are required"
  else
    match jsString (jsOr body.name (.str "")) with
    | none => .threw
    | some nameText =>
      let nameValue := trim nameText
      if !nameRegexTest nameValue then
        .refused "Name should contain only letters."
      else
        match menu.find? (fun m => JsVal.str m.name == body.item) with
        | none => .refused "Invalid menu item"
        | some menuItem =>
          match jsString body.quantity with
          | none => .threw
          | some quantityText =>
            match parseInt quantityText 10 with
            | .fin qty =>
              if qty < 1 then
                .refused "Quantity must be at least 1"
              else
                match jsString (jsOr body.phone (.str "")) with
                | none => .threw
                | some phoneText =>
                  let phoneRaw := trim phoneText
                  let phoneDigits := replaceAllWithEmpty (fun c => !isAsciiDigit c) phoneRaw
                  if jsLength phoneDigits < 7 || jsLength phoneDigits > 15 then
                    .refused "Enter a valid phone number (7-15 digits)"
                  else
                    match jsString (jsOr body.address (.str "")) with
                    | none => .threw
                    | some addressText =>
                      let addressStr := trim addressText
                      if jsLength addressStr < 5 then
                        .refused "Address must be at least 5 characters"
                      else
                        .passed (menuItem, qty)
            | _ => .refused "Quantity must be at least 1"

/-- The order object the handler builds once validation has passed, as it is
written to `orders.json` and sent in the reply.  `quantityText` is the
quantity converted to a string for the second `parseInt`. -/
def buildOrder (body : OrderBody) (menuItem : MenuItem) (qty : Int) (quantityText : List Char)
    (now : Int) (createdAt updatedAt : String) : Order :=
  let totalPrice := jsMul (.fin menuItem.price) (.fin qty)
  { id := now
    item := body.item
    itemId := menuItem.id
    quantity := jsonNumber (parseInt quantityText 0)
    price := menuItem.price
    totalPrice := jsonNumber totalPrice
    customerName := body.name
    customerPhone := body.phone
    deliveryAddress := body.address
    paymentMethod := body.payment
    status := .str "pending"
    createdAt := createdAt
    updatedAt := updatedAt }

/-- The whole handler: the reply and the contents of `orders.json` afterwards. -/
def createOrder (menu : List MenuItem) (orders : List Order) (body : OrderBody) (now : Int)
    (createdAt updatedAt : String) (writeOk : Bool) : Reply Order × List Order :=
  match validateOrder body menu with
  | .refused e => (.fail 400 e, orders)
  | .threw => (.fail 500 "Failed to create order", orders)
  | .passed (menuItem, qty) =>
    match jsString body.quantity with
    | none => (.fail 500 "Failed to create order", orders)
    | some quantityText =>
      let order := buildOrder body menuItem qty quantityText now createdAt updatedAt
      if writeOk then (.ok 201 order, orders ++ [order])
      else (.fail 500 "Failed to save order", orders)

/-! ## Status update: `app.patch('/api/orders/:id')` -/

/-- The six status values. -/
def validStatuses : List JsVal :=
  [.str "pending", .str "confirmed", .str "preparing", .str "out_for_delivery",
   .str "delivered", .str "cancelled"]

/-- JavaScript `Array.prototype.findIndex`; `none` is `-1`. -/
def findIndex {α : Type} (p : α → Bool) : List α → Option Nat
  | [] => none
  | x :: xs => if p x then some 0 else (findIndex p xs).map (· + 1)

/-- Strict equality of a stored number with the result of `parseInt`;
`NaN` equals nothing. -/
def numEq (n : Int) (m : JsNum) : Bool := m == .fin n

/-- The handler: the reply and the contents of `orders.json` afterwards. -/
def updateStatus (orders : List Order) (idParam : String) (status : JsVal) (now : String)
    (writeOk : Bool) : Reply Order × List Order :=
  if !truthy status || !validStatuses.contains status then
    (.fail 400 "Valid status is required", orders)
  else
    match findIndex (fun o => numEq o.id (parseInt idParam.data 0)) orders with
    | none => (.fail 404 "Order not found", orders)
    | some orderIndex =>
      match orders[orderIndex]? with
      | none => (.fail 500 "Failed to update order", orders)
      | some o =>
        let updated := { o with status := status, updatedAt := now }
        if writeOk then (.ok 200 updated, orders.set orderIndex updated)
        else (.fail 500 "Failed to update order", orders)

/-! ## Deletion: `app.delete('/api/orders/:id')` -/

/-- The handler: the reply and the contents of `orders.json` afterwards. -/
def deleteOrder (orders : List Order) (idParam : String) (writeOk : Bool) :
    Reply Unit × List Order :=
  let filteredOrders := orders.filter fun o => !numEq o.id (parseInt idParam.data 0)
  if orders.length == filteredOrders.length then
    (.fail 404 "Order not found", orders)
  else if writeOk then (.ok 200 (), filteredOrders)
  else (.fail 500 "Failed to delete order", orders)

/-! ## Statistics: `app.get('/api/stats')` -/

/-- An entry of `popularItems`. -/
structure PopularItem where
  name : String
  orders : Nat
  revenue : JsNum
  deriving DecidableEq, Repr

/-- The object `ordersByStatus`. -/
structure StatusCounts where
  pending : Nat
  confirmed : Nat
  preparing : Nat
  out_for_delivery : Nat
  delivered : Nat
  cancelled : Nat
  deriving DecidableEq, Repr

/-- The object `stats`, as computed; `res.json` then prints a number that is
`NaN` or infinite as `null`. -/
structure Stats where
  totalOrders : Nat
  totalRevenue : JsNum
  ordersByStatus : StatusCounts
  popularItems : List PopularItem
  deriving DecidableEq, Repr

/-- Insertion of `x` in front of the first element it does not have to follow. -/
def insertByCmp {α : Type} (cmp : α → α → Int) (x : α) : List α → List α
  | [] => [x]
  | y :: ys => if cmp x y ≤ 0 then x :: y :: ys else y :: insertByCmp cmp x ys

/-- JavaScript `Array.prototype.sort(cmp)`.  The language requires the sort to
be stable (ECMAScript 2019), and with a comparator that orders by a key the
sorted, stable result is unique (`arraySort_unique`), so a stable insertion
sort computes what every conforming engine returns. -/
def arraySort {α : Type} (cmp : α → α → Int) : List α → List α
  | [] => []
  | x :: xs => insertByCmp cmp x (arraySort cmp xs)

/-- The reducer `orders.reduce((sum, order) => sum + order.totalPrice, 0)`. -/
def sumTotalPrice (orders : List Order) : JsNum :=
  orders.foldl (fun sum order => jsAdd sum (toNumber order.totalPrice)) (.fin 0)

/-- The number `orders.filter(o => o.status === s).length`. -/
def countStatus (orders : List Order) (s : String) : Nat :=
  (orders.filter fun o => o.status == .str s).length

/-- The entry the `map` callback builds for one menu item. -/
def popularEntry (orders : List Order) (item : MenuItem) : PopularItem :=
  let itemOrders := orders.filter fun o => o.itemId == item.id
  { name := item.name
    orders := itemOrders.length
    revenue := sumTotalPrice itemOrders }

/-- The list `popularItems`. -/
def popularItems (menu : List MenuItem) (orders : List Order) : List PopularItem :=
  arraySort (fun a b => (b.orders : Int) - (a.orders : Int)) (menu.map (popularEntry orders))

/-- The object `stats` of the handler. -/
def computeStats (menu : List MenuItem) (orders : List Order) : Stats :=
  { totalOrders := orders.length
    totalRevenue := sumTotalPrice orders
    ordersByStatus :=
      { pending := countStatus orders "pending"
        confirmed := countStatus orders "confirmed"
        preparing := countStatus orders "preparing"
        out_for_delivery := countStatus orders "out_for_delivery"
        delivered := countStatus orders "delivered"
        cancelled := countStatus orders "cancelled" }
    popularItems := popularItems menu orders }

/-! ## The ordered rule list of the specification -/

/-- A validation rule: the condition a request has to meet, which cannot be
evaluated (`none`) when it needs a field as a string and the conversion
throws, and the text of the failure when the condition is not met. -/
structure Rule where
  holds : OrderBody → Option Bool
  message : String

/-- What the rule list says of a request. -/
inductive Verdict where
  | allHold
  | violated (message : String)
  | threw
  deriving DecidableEq, Repr

/-- The rules taken in order up to the first one that does not hold: its
message when the request violates it, `threw` when it cannot be evaluated. -/
def firstViolation : List Rule → OrderBody → Verdict
  | [], _ => .allHold
  | r :: rs, body =>
    match r.holds body with
    | some true => firstViolation rs body
    | some false => .violated r.message
    | none => .threw

/-- A field that is present and non-empty, as the specification words rule 1:
it is there, it is not `null` and it is not the empty string. -/
def presentNonEmpty (v : JsVal) : Bool :=
  v != .undefined && v != .null && v != .str ""

/-- Rule 1 as the specification words it: all six fields present and non-empty. -/
def allPresentNonEmpty (body : OrderBody) : Bool :=
  presentNonEmpty body.item && presentNonEmpty body.quantity && presentNonEmpty body.name &&
  presentNonEmpty body.phone && presentNonEmpty body.address && presentNonEmpty body.payment

/-- Rule 1 as the handler tests it: all six fields truthy. -/
def allTruthy (body : OrderBody) : Bool :=
  truthy body.item && truthy body.quantity && truthy body.name &&
  truthy body.phone && truthy body.address && truthy body.payment

/-- Rule 2: the name, trimmed, is non-empty and made of letters and blanks only. -/
def nameLettersOnly (body : OrderBody) : Option Bool :=
  (jsString body.name).map fun text => !(trim text).isEmpty && (trim text).all isLetterOrSpace

/-- Rule 3: the item is the name of a menu item. -/
def itemOnMenu (menu : List MenuItem) (body : OrderBody) : Bool :=
  menu.any fun m => body.item == .str m.name

/-- Whether a number is an integer that is at least 1. -/
def integerAtLeastOne : JsNum → Bool
  | .fin q => decide (1 ≤ q)
  | _ => false

/-- Rule 4: the quantity parses to an integer that is at least 1. -/
def quantityAtLeastOne (body : OrderBody) : Option Bool :=
  (jsString body.quantity).map fun text => integerAtLeastOne (parseInt text 10)

/-- The integer the quantity parses to in base 10, when it is a finite number. -/
def parsedQuantity (body : OrderBody) : Int :=
  match (jsString body.quantity).map fun text => parseInt text 10 with
  | some (.fin q) => q
  | _ => 0

/-- The number of characters `0` to `9` of a string. -/
def digitCount (s : List Char) : Nat := s.countP isAsciiDigit

/-- Rule 5: the phone has between 7 and 15 digits. -/
def phoneDigitsInRange (body : OrderBody) : Option Bool :=
  (jsString body.phone).map fun text => decide (7 ≤ digitCount text) && decide (digitCount text ≤ 15)

/-- Rule 6: the address, trimmed, has length at least 5. -/
def addressLongEnough (body : OrderBody) : Option Bool :=
  (jsString body.address).map fun text => decide (5 ≤ jsLength (trim text))

/-- An ASCII letter, `A` to `Z` or `a` to `z`. -/
def isAsciiLetter (c : Char) : Bool :=
  ('A'.toNat ≤ c.toNat && c.toNat ≤ 'Z'.toNat) || ('a'.toNat ≤ c.toNat && c.toNat ≤ 'z'.toNat)

/-- Rules 2 to 6 with their messages, in the order of the specification. -/
def laterRules (menu : List MenuItem) : List Rule :=
  [ ⟨nameLettersOnly, "Name should contain only letters."⟩,
    ⟨fun body => some (itemOnMenu menu body), "Invalid menu item"⟩,
    ⟨quantityAtLeastOne, "Quantity must be at least 1"⟩,
    ⟨phoneDigitsInRange, "Enter a valid phone number (7-15 digits)"⟩,
    ⟨addressLongEnough, "Address must be at least 5 characters"⟩ ]

/-- The rule list with rule 1 as the specification words it. -/
def specRules (menu : List MenuItem) : List Rule :=
  ⟨fun body => some (allPresentNonEmpty body), "All fields are required"⟩ :: laterRules menu

/-- The rule list with rule 1 read as truthiness of the six fields. -/
def orderedRules (menu : List MenuItem) : List Rule :=
  ⟨fun body => some (allTruthy body), "All fields are required"⟩ :: laterRules menu

/-- The value of a stored `totalPrice` in a sum: `null` counts as 0. -/
def priceValue (o : Order) : Int := o.totalPrice.getD 0

/-- The sum of a list of numbers taken from left to right, starting from `acc`. -/
def jsSumFrom (acc : JsNum) : List JsNum → JsNum
  | [] => acc
  | x :: xs => jsSumFrom (jsAdd acc x) xs

/-- An entry of `popularItems` as the specification describes it: the name of
the item, the number of orders whose `itemId` is the id of the item, and the
sum of their `totalPrice`. -/
def specEntry (orders : List Order) (m : MenuItem) : PopularItem :=
  { name := m.name
    orders := orders.countP fun o => decide (o.itemId = m.id)
    revenue := jsSumFrom (.fin 0)
      ((orders.filter fun o => decide (o.itemId = m.id)).map fun o => toNumber o.totalPrice) }

/-- The data-model invariant of a stored order: its status is one of the six,
and `quantity` and `totalPrice` are numbers with `totalPrice` the JavaScript
product `price * quantity`. -/
abbrev orderInvariant (o : Order) : Prop :=
  o.status ∈ validStatuses ∧
    (o.quantity.map fun q => jsMul (.fin o.price) (.fin q)) = o.totalPrice.map JsNum.fin ∧
    o.totalPrice ≠ none

/-! ## Example data -/

/-- A valid request: two pizzas for John Doe. -/
def exBody : OrderBody :=
  { item := .str "Pizza", quantity := .str "2", name := .str "John Doe",
    phone := .str "+1 (555) 123-4567", address := .str "12 Main St", payment := .str "cash" }

/-- A valid request with the quantity sent as the number 0. -/
def zeroQuantityBody : OrderBody := { exBody with quantity := JsVal.num 0 (by decide) }

/-- A request with a name that has digits and the quantity sent as the number 0. -/
def badNameZeroQuantityBody : OrderBody :=
  { exBody with name := .str "John123", quantity := JsVal.num 0 (by decide) }

/-- The digit 1 followed by 308 zeros. -/
def hugeQuantity : String := String.mk ('1' :: List.replicate 308 '0')

/-- A valid request for a quantity of 1 followed by 308 zeros. -/
def hugeQuantityBody : OrderBody := { exBody with quantity := .str hugeQuantity }

/-- A valid request whose phone is an object with `toString` set to `null`. -/
def unprintablePhoneBody : OrderBody := { exBody with phone := .other none }

/-- The first item of the initial menu. -/
def pizza : MenuItem :=
  { id := 1, name := "Pizza", price := 1200,
    image := "https://images.unsplash.com/photo-1513104890138-7c749659a591?w=400&h=300&fit=crop",
    description := "Delicious pizza with fresh ingredients" }

/-- The order built from `exBody` at a fixed time. -/
def exOrder : Order :=
  buildOrder exBody pizza 2 "2".data 1700000000000 "2023-11-14T22:13:20.000Z"
    "2023-11-14T22:13:20.000Z"

/-- A second order, of three burgers, placed a second later. -/
def exOrder2 : Order :=
  { exOrder with
    id := 1700000001000, item := .str "Burger", itemId := 2, quantity := some 3,
    price := 600, totalPrice := some 1800, status := .str "confirmed" }

/-- An order whose id is `2 ^ 53`. -/
def bigIdOrder : Order := { exOrder with id := 9007199254740992 }

/-- An order for the menu item with the given id. -/
def orderFor (id itemId : Int) : Order :=
  { exOrder with id := id, itemId := itemId }

/-- A catalog of three items A, B, C. -/
def abcMenu : List MenuItem :=
  [ { id := 1, name := "A", price := 100, image := "", description := "" },
    { id := 2, name := "B", price := 200, image := "", description := "" },
    { id := 3, name := "C", price := 300, image := "", description := "" } ]

/-- Three orders of A, five of B and three of C, interleaved. -/
def abcOrders : List Order :=
  [ orderFor 1 1, orderFor 2 2, orderFor 3 3, orderFor 4 2, orderFor 5 1, orderFor 6 3,
    orderFor 7 2, orderFor 8 2, orderFor 9 3, orderFor 10 1, orderFor 11 2 ]

/-- An order of ten thousand million million pizzas and two orders of a burger. -/
def roundedOrders : List Order :=
  [ { exOrder with
      id := 1, quantity := some 10000000000000000, totalPrice := some 12000000000000000000 },
    { exOrder with
      id := 2, item := .str "Burger", itemId := 2, quantity := some 1, price := 600,
      totalPrice := some 600 },
    { exOrder with
      id := 3, item := .str "Burger", itemId := 2, quantity := some 1, price := 600,
      totalPrice := some 600 } ]

/-! ## Lemmas on numbers -/

theorem roundNat_of_lt {m : Nat} (h : m < 2 ^ 53) : roundNat m = m := by
  unfold roundNat
  rw [if_pos h]

/-- Integers below `2 ^ 53` in magnitude are doubles. -/
theorem toDouble_of_lt {x : Int} (h : x.natAbs < 2 ^ 53) : toDouble x = .fin x := by
  have hbig : ¬ (1 <<< 1024 ≤ x.natAbs) := by
    have : (2 : Nat) ^ 53 < 1 <<< 1024 := by decide
    omega
  simp only [toDouble, roundNat_of_lt h, hbig, if_false]
  congr 1
  split <;> omega

theorem toDouble_zero : toDouble 0 = .fin 0 := toDouble_of_lt (by decide)

theorem toDouble_neg_zero : toDouble (-0) = .fin 0 := toDouble_of_lt (by decide)

/-! ## Lemmas on strings -/

theorem testAnchoredPlus_eq (cls : Char → Bool) (s : List Char) :
    testAnchoredPlus cls s = (!s.isEmpty && s.all cls) := by
  induction s with
  | nil => rfl
  | cons c cs ih =>
    cases cs with
    | nil => simp [testAnchoredPlus]
    | cons d ds => rw [testAnchoredPlus, ih]; simp

theorem jsOr_of_truthy {a b : JsVal} (h : truthy a = true) : jsOr a b = a := by
  simp [jsOr, h]

theorem isAsciiDigit_not_space {c : Char} (h : isAsciiDigit c = true) : isJsSpace c = false := by
  simp only [isAsciiDigit, Bool.and_eq_true, decide_eq_true_eq] at h
  simp only [isJsSpace, Bool.or_eq_false_iff, Bool.and_eq_false_imp, beq_eq_false_iff_ne,
    decide_eq_true_eq, decide_eq_false_iff_not]
  omega

theorem filter_dropWhile_of_disjoint {p q : Char → Bool} (h : ∀ c, p c = true → q c = false)
    (l : List Char) : (l.dropWhile q).filter p = l.filter p := by
  induction l with
  | nil => rfl
  | cons c cs ih =>
    cases hq : q c with
    | false => simp [List.dropWhile, hq]
    | true =>
      have hp : p c = false := by
        cases hp : p c with
        | false => rfl
        | true => rw [h c hp] at hq; cases hq
      simp [List.dropWhile, hq, hp, ih]

theorem filter_trim_of_disjoint {p : Char → Bool} (h : ∀ c, p c = true → isJsSpace c = false)
    (l : List Char) : (trim l).filter p = l.filter p := by
  unfold trim trimEnd trimStart
  rw [List.filter_reverse, filter_dropWhile_of_disjoint h, ← List.filter_reverse,
    List.reverse_reverse, filter_dropWhile_of_disjoint h]

theorem jsLength_of_digits (l : List Char) (h : ∀ c ∈ l, isAsciiDigit c = true) :
    jsLength l = l.length := by
  induction l with
  | nil => rfl
  | cons c cs ih =>
    have hc := h c (List.mem_cons_self _ _)
    simp only [isAsciiDigit, Bool.and_eq_true, decide_eq_true_eq] at hc
    have hlt : ¬ 0x10000 ≤ c.toNat := by omega
    have := ih (fun d hd => h d (List.mem_cons_of_mem _ hd))
    simp only [jsLength] at this ⊢
    simp [hlt, this]
    omega

/-- The length of the phone with everything but digits removed is its number of digits. -/
theorem phoneDigits_length (s : List Char) :
    jsLength (replaceAllWithEmpty (fun c => !isAsciiDigit c) (trim s)) = digitCount s := by
  have hf : (fun c => !(fun c => !isAsciiDigit c) c) = isAsciiDigit := by
    funext c; simp
  unfold replaceAllWithEmpty digitCount
  rw [hf, filter_trim_of_disjoint (fun c h => isAsciiDigit_not_space h),
    jsLength_of_digits _ (fun c hc => (List.mem_filter.mp hc).2), List.countP_eq_length_filter]

/-! ## Order validation -/

theorem allTruthy_eq_false_iff (body : OrderBody) :
    allTruthy body = false ↔
      (!truthy body.item || !truthy body.quantity || !truthy body.name ||
        !truthy body.phone || !truthy body.address || !truthy body.payment) = true := by
  unfold allTruthy
  cases truthy body.item <;> cases truthy body.quantity <;> cases truthy body.name <;>
    cases truthy body.phone <;> cases truthy body.address <;> cases truthy body.payment <;> simp

theorem itemOnMenu_eq_false_iff (menu : List MenuItem) (body : OrderBody) :
    itemOnMenu menu body = false ↔
      menu.find? (fun m => JsVal.str m.name == body.item) = none := by
  unfold itemOnMenu
  rw [List.find?_eq_none, ← Bool.not_eq_true, List.any_eq_true]
  constructor
  · intro h m hm hme
    exact h ⟨m, hm, by rw [beq_iff_eq] at hme ⊢; exact hme.symm⟩
  · rintro h ⟨m, hm, hme⟩
    exact h m hm (by rw [beq_iff_eq] at hme ⊢; exact hme.symm)

/-- The handler's validation, check by check, in terms of the six rules. -/
theorem validateOrder_eq (body : OrderBody) (menu : List MenuItem) :
    validateOrder body menu =
      if allTruthy body = false then .refused "All fields are required"
      else match nameLettersOnly body with
        | none => .threw
        | some false => .refused "Name should contain only letters."
        | some true =>
          match menu.find? (fun m => JsVal.str m.name == body.item) with
          | none => .refused "Invalid menu item"
          | some menuItem =>
            match quantityAtLeastOne body with
            | none => .threw
            | some false => .refused "Quantity must be at least 1"
            | some true =>
              match phoneDigitsInRange body with
              | none => .threw
              | some false => .refused "Enter a valid phone number (7-15 digits)"
              | some true =>
                match addressLongEnough body with
                | none => .threw
                | some false => .refused "Address must be at least 5 characters"
                | some true => .passed (menuItem, parsedQuantity body) := by
  unfold validateOrder
  by_cases h1 : allTruthy body = false
  · rw [if_pos ((allTruthy_eq_false_iff body).mp h1), if_pos h1]
  · rw [if_neg (fun h => h1 ((allTruthy_eq_false_iff body).mpr h)), if_neg h1]
    have ht : allTruthy body = true := by simpa using h1
    simp only [allTruthy, Bool.and_eq_true] at ht
    obtain ⟨⟨⟨⟨⟨-, -⟩, hn⟩, hp⟩, ha⟩, -⟩ := ht
    simp only [jsOr_of_truthy hn, jsOr_of_truthy hp, jsOr_of_truthy ha, nameRegexTest,
      testAnchoredPlus_eq, phoneDigits_length]
    unfold nameLettersOnly
    cases jsString body.name with
    | none => rfl
    | some nameText =>
      simp only [Option.map_some']
      cases hname : (!(trim nameText).isEmpty && (trim nameText).all isLetterOrSpace) with
      | false => simp
      | true =>
        simp only [Bool.not_true, Bool.false_eq_true, if_false]
        cases menu.find? (fun m => JsVal.str m.name == body.item) with
        | none => rfl
        | some menuItem =>
          simp only
          unfold quantityAtLeastOne parsedQuantity
          cases jsString body.quantity with
          | none => rfl
          | some quantityText =>
            simp only [Option.map_some']
            cases hq : parseInt quantityText 10 with
            | nan => simp [integerAtLeastOne]
            | inf s => simp [integerAtLeastOne]
            | fin qty =>
              by_cases hlt : qty < 1
              · have : ¬ 1 ≤ qty := by omega
                simp [integerAtLeastOne, hlt, this]
              · have hge : 1 ≤ qty := by omega
                simp only [integerAtLeastOne, hlt, hge, if_false, decide_True]
                unfold phoneDigitsInRange
                cases jsString body.phone with
                | none => rfl
                | some phoneText =>
                  simp only [Option.map_some', phoneDigits_length]
                  by_cases h5 : 7 ≤ digitCount phoneText ∧ digitCount phoneText ≤ 15
                  · have h5a : ¬ digitCount phoneText < 7 := by omega
                    have h5b : ¬ digitCount phoneText > 15 := by omega
                    simp only [h5.1, h5.2, h5a, h5b, decide_True, decide_False, Bool.and_self,
                      Bool.or_self, Bool.false_eq_true, if_false]
                    unfold addressLongEnough
                    cases jsString body.address with
                    | none => rfl
                    | some addressText =>
                      simp only [Option.map_some']
                      by_cases h6 : 5 ≤ jsLength (trim addressText)
                      · have h6' : ¬ jsLength (trim addressText) < 5 := by omega
                        simp [h6, h6']
                      · have h6' : jsLength (trim addressText) < 5 := by omega
                        simp [h6, h6']
                  · have h5' : digitCount phoneText < 7 ∨ digitCount phoneText > 15 := by omega
                    have h5'' : (decide (7 ≤ digitCount phoneText) &&
                        decide (digitCount phoneText ≤ 15)) = false := by
                      simpa using fun h => by omega
                    simp [h5', h5'']

/-- C1, as worded by the specification, fails: with the quantity sent as the
number 0 every field is present and non-empty and the first rule of the list
the request violates is rule 4, yet the handler answers with the message of
rule 1. -/
theorem spec_rule_order_fails_for_numeric_zero :
    validateOrder zeroQuantityBody initialMenu = .refused "All fields are required" ∧
      createOrder initialMenu [] zeroQuantityBody 1700000000000 "2023-11-14T22:13:20.000Z"
          "2023-11-14T22:13:20.000Z" true = (.fail 400 "All fields are required", []) ∧
      firstViolation (specRules initialMenu) zeroQuantityBody =
        .violated "Quantity must be at least 1" := by
  decide

/-- C1 (amended): the rules are taken in the order required fields, name,
menu item, quantity, phone, address, where rule 1 asks that all six fields
are truthy (a field that is absent, null, false, the number 0 or the empty
string counts as missing), rule 4 that the quantity parses to a finite
integer of at least 1, and a rule that needs a field as a string cannot be
evaluated when that conversion throws.  Order creation stops at the first
rule that does not hold: if the request violates it the reply is 400 with
exactly the message of that rule, if it cannot be evaluated the reply is 500
"Failed to create order", and in both cases the orders are untouched.  The
construction of the order is reached exactly when all six rules hold. -/
theorem createOrder_first_violated_rule (menu : List MenuItem) (orders : List Order)
    (body : OrderBody) (now : Int) (createdAt updatedAt : String) (writeOk : Bool) :
    match firstViolation (orderedRules menu) body with
    | .violated msg =>
        validateOrder body menu = .refused msg ∧
          createOrder menu orders body now createdAt updatedAt writeOk = (.fail 400 msg, orders)
    | .threw =>
        validateOrder body menu = .threw ∧
          createOrder menu orders body now createdAt updatedAt writeOk =
            (.fail 500 "Failed to create order", orders)
    | .allHold =>
        ∃ menuItem qty quantityText,
          validateOrder body menu = .passed (menuItem, qty) ∧
          jsString body.quantity = some quantityText ∧
          createOrder menu orders body now createdAt updatedAt writeOk =
            if writeOk then
              (.ok 201 (buildOrder body menuItem qty quantityText now createdAt updatedAt),
                orders ++ [buildOrder body menuItem qty quantityText now createdAt updatedAt])
            else (.fail 500 "Failed to save order", orders) := by
  unfold createOrder
  rw [validateOrder_eq]
  simp only [firstViolation, orderedRules, laterRules]
  cases h1 : allTruthy body with
  | false => simp
  | true =>
    rcases h2 : nameLettersOnly body with _ | _ | _
    · simp
    · simp
    · cases h3 : itemOnMenu menu body with
      | false => simp [(itemOnMenu_eq_false_iff menu body).mp h3]
      | true =>
        cases hf : menu.find? (fun m => JsVal.str m.name == body.item) with
        | none => rw [(itemOnMenu_eq_false_iff menu body).mpr hf] at h3; cases h3
        | some menuItem =>
          rcases h4 : quantityAtLeastOne body with _ | _ | _
          · simp
          · simp
          · rcases h5 : phoneDigitsInRange body with _ | _ | _
            · simp
            · simp
            · rcases h6 : addressLongEnough body with _ | _ | _
              · simp
              · simp
              · obtain ⟨quantityText, hq, -⟩ := Option.map_eq_some'.mp h4
                refine ⟨menuItem, parsedQuantity body, quantityText, ?_⟩
                simp [hq]

theorem quantityAtLeastOne_iff (body : OrderBody) :
    quantityAtLeastOne body = some true ↔
      ∃ text q, jsString body.quantity = some text ∧ parseInt text 10 = .fin q ∧ 1 ≤ q ∧
        parsedQuantity body = q := by
  unfold quantityAtLeastOne parsedQuantity
  cases jsString body.quantity with
  | none => simp
  | some text =>
    cases hp : parseInt text 10 with
    | nan => simp [integerAtLeastOne, hp]
    | inf s => simp [integerAtLeastOne, hp]
    | fin q => simp [integerAtLeastOne, hp]

/-- When validation passes: every rule holds, the menu item is the first one
with the requested name and `qty` is the quantity read in base 10. -/
theorem validateOrder_passed_iff (body : OrderBody) (menu : List MenuItem) (menuItem : MenuItem)
    (qty : Int) :
    validateOrder body menu = .passed (menuItem, qty) ↔
      allTruthy body = true ∧ nameLettersOnly body = some true ∧
      menu.find? (fun m => JsVal.str m.name == body.item) = some menuItem ∧
      (∃ text, jsString body.quantity = some text ∧ parseInt text 10 = .fin qty) ∧ 1 ≤ qty ∧
      phoneDigitsInRange body = some true ∧ addressLongEnough body = some true := by
  rw [validateOrder_eq]
  cases h1 : allTruthy body with
  | false => simp
  | true =>
    rcases h2 : nameLettersOnly body with _ | _ | _
    · simp
    · simp
    · cases hf : menu.find? (fun m => JsVal.str m.name == body.item) with
      | none => simp
      | some m =>
        rcases h4 : quantityAtLeastOne body with _ | _ | _
        · have hno : ¬ ∃ text q, jsString body.quantity = some text ∧
              parseInt text 10 = .fin q ∧ 1 ≤ q ∧ parsedQuantity body = q := by
            rw [← quantityAtLeastOne_iff, h4]; simp
          simp only [Bool.true_eq_false, if_false, reduceCtorEq, false_iff, not_and, true_and]
          rintro - ⟨text, ht, hp⟩ hq
          exact absurd ⟨text, qty, ht, hp, hq, by simp [parsedQuantity, ht, hp]⟩ hno
        · have hno : ¬ ∃ text q, jsString body.quantity = some text ∧
              parseInt text 10 = .fin q ∧ 1 ≤ q ∧ parsedQuantity body = q := by
            rw [← quantityAtLeastOne_iff, h4]; simp
          simp only [Bool.true_eq_false, if_false, reduceCtorEq, false_iff, not_and, true_and]
          rintro - ⟨text, ht, hp⟩ hq
          exact absurd ⟨text, qty, ht, hp, hq, by simp [parsedQuantity, ht, hp]⟩ hno
        · obtain ⟨text, q, ht, hp, hq, hpq⟩ := (quantityAtLeastOne_iff body).mp h4
          rcases h5 : phoneDigitsInRange body with _ | _ | _
          · simp
          · simp
          · rcases h6 : addressLongEnough body with _ | _ | _
            · simp
            · simp
            · simp only [Bool.true_eq_false, if_false, Checked.passed.injEq, Prod.mk.injEq,
                Option.some.injEq, true_and, and_true, hpq, ht]
              constructor
              · rintro ⟨rfl, rfl⟩
                exact ⟨rfl, ⟨text, rfl, hp⟩, hq⟩
              · rintro ⟨rfl, ⟨text', ht', hp'⟩, -⟩
                subst ht'
                rw [hp] at hp'
                exact ⟨rfl, JsNum.fin.inj hp'⟩

/-- A request with a name that is not made of letters and an item that is not
on the menu is refused with the message of the name rule. -/
theorem name_rule_before_item_rule :
    validateOrder { exBody with name := .str "John123", item := .str "Sushi" } initialMenu =
      .refused "Name should contain only letters." := by
  decide

/-! ## The name check -/

theorem isLetterOrSpace_iff (c : Char) :
    isLetterOrSpace c = true ↔ isAsciiLetter c = true ∨ isJsSpace c = true := by
  simp only [isLetterOrSpace, isAsciiLetter, Bool.or_eq_true]
  rfl

/-- C3, as worded, fails: with the quantity sent as the number 0 all six
fields are present and non-empty and the name has digits, yet creation does
not fail with the message of the name rule. -/
theorem name_error_not_given_for_numeric_zero :
    allPresentNonEmpty badNameZeroQuantityBody = true ∧
      nameLettersOnly badNameZeroQuantityBody = some false ∧
      validateOrder badNameZeroQuantityBody initialMenu = .refused "All fields are required" ∧
      createOrder initialMenu [] badNameZeroQuantityBody 1700000000000
          "2023-11-14T22:13:20.000Z" "2023-11-14T22:13:20.000Z" true =
        (.fail 400 "All fields are required", []) := by
  decide

/-- C3 (amended): for every request whose six fields are all truthy (none
absent, null, false, the number 0 or the empty string) and whose name can be
converted to a string, the name check `nameRegex.test(nameValue)` is made on
that string trimmed and passes exactly when it is non-empty and made only of
ASCII letters and white space; when it does not pass, creation fails with
400 "Name should contain only letters." and the orders are untouched; when
it passes, creation does not fail with that message, and validation
succeeds if the other rules hold. -/
theorem name_check_letters_only (body : OrderBody) (menu : List MenuItem)
    (nameText : List Char) (h : allTruthy body = true)
    (hs : jsString body.name = some nameText) :
    jsString (jsOr body.name (.str "")) = some nameText ∧
    (nameRegexTest (trim nameText) = true ↔
      trim nameText ≠ [] ∧
        ∀ c ∈ trim nameText, isAsciiLetter c = true ∨ isJsSpace c = true) ∧
    (nameRegexTest (trim nameText) = false →
      validateOrder body menu = .refused "Name should contain only letters." ∧
      ∀ (orders : List Order) (now : Int) (createdAt updatedAt : String) (writeOk : Bool),
        createOrder menu orders body now createdAt updatedAt writeOk =
          (.fail 400 "Name should contain only letters.", orders)) ∧
    (nameRegexTest (trim nameText) = true →
      validateOrder body menu ≠ .refused "Name should contain only letters." ∧
      (itemOnMenu menu body = true → quantityAtLeastOne body = some true →
        phoneDigitsInRange body = some true → addressLongEnough body = some true →
        ∃ r, validateOrder body menu = .passed r)) := by
  have hn : truthy body.name = true := by
    simp only [allTruthy, Bool.and_eq_true] at h
    exact h.1.1.1.2
  have hname : nameLettersOnly body = some (nameRegexTest (trim nameText)) := by
    rw [nameRegexTest, testAnchoredPlus_eq, nameLettersOnly, hs]
    rfl
  refine ⟨by rw [jsOr_of_truthy hn, hs], ?_, ?_, ?_⟩
  · rw [nameRegexTest, testAnchoredPlus_eq]
    simp only [Bool.and_eq_true, Bool.not_eq_true', List.isEmpty_eq_false,
      List.all_eq_true, isLetterOrSpace_iff]
  · intro h2
    have hv : validateOrder body menu = .refused "Name should contain only letters." := by
      rw [validateOrder_eq, hname, h2]
      simp [h]
    refine ⟨hv, ?_⟩
    intro orders now createdAt updatedAt writeOk
    simp only [createOrder, hv]
  · intro h2
    rw [validateOrder_eq, hname, h2]
    simp only [h, Bool.true_eq_false, if_false]
    constructor
    · cases menu.find? (fun m => JsVal.str m.name == body.item) with
      | none => simp
      | some m =>
        simp only
        rcases quantityAtLeastOne body with _ | _ | _ <;> simp only [reduceCtorEq, ne_eq,
          not_false_eq_true, Checked.refused.injEq, String.reduceEq]
        rcases phoneDigitsInRange body with _ | _ | _ <;> simp only [reduceCtorEq, ne_eq,
          not_false_eq_true, Checked.refused.injEq, String.reduceEq]
        rcases addressLongEnough body with _ | _ | _ <;> simp only [reduceCtorEq, ne_eq,
          not_false_eq_true, Checked.refused.injEq, String.reduceEq]
    · intro h3 h4 h5 h6
      cases hf : menu.find? (fun m => JsVal.str m.name == body.item) with
      | none => rw [(itemOnMenu_eq_false_iff menu body).mpr hf] at h3; cases h3
      | some m => simp [h4, h5, h6]

/-- C3 at the two names of the specification: "John123" is refused with the
message of the name rule, "John Doe" with valid other fields is accepted. -/
theorem name_check_letters_only_witness :
    validateOrder { exBody with name := .str "John123" } initialMenu =
        .refused "Name should contain only letters." ∧
      ∃ r, validateOrder exBody initialMenu = .passed r :=
  ⟨((name_check_letters_only { exBody with name := .str "John123" } initialMenu
      "John123".data (by decide) (by decide)).2.2.1 (by decide)).1,
    ((name_check_letters_only exBody initialMenu "John Doe".data (by decide)
      (by decide)).2.2.2 (by decide)).2 (by decide) (by decide) (by decide) (by decide)⟩

/-! ## The phone check -/

/-- C4, as worded, fails: a request that passes the required-fields, name,
item and quantity checks and whose phone is an object that cannot be
converted to a string is answered with 500 "Failed to create order", which
is neither a pass of the phone check nor the message of the phone rule. -/
theorem phone_conversion_throws :
    allTruthy unprintablePhoneBody = true ∧
      nameLettersOnly unprintablePhoneBody = some true ∧
      itemOnMenu initialMenu unprintablePhoneBody = true ∧
      quantityAtLeastOne unprintablePhoneBody = some true ∧
      validateOrder unprintablePhoneBody initialMenu = .threw ∧
      createOrder initialMenu [] unprintablePhoneBody 1700000000000
          "2023-11-14T22:13:20.000Z" "2023-11-14T22:13:20.000Z" true =
        (.fail 500 "Failed to create order", []) := by
  decide

/-- C4 (amended): for every request that passes the required-fields, name,
item and quantity checks and whose phone can be converted to a string, the
length the handler tests is the number of characters `0` to `9` of that
string; creation fails with "Enter a valid phone number (7-15 digits)"
exactly when that number is not between 7 and 15, and when it is, creation
goes on to the address check. -/
theorem phone_check_digit_count (body : OrderBody) (menu : List MenuItem)
    (phoneText : List Char)
    (h1 : allTruthy body = true) (h2 : nameLettersOnly body = some true)
    (h3 : itemOnMenu menu body = true) (h4 : quantityAtLeastOne body = some true)
    (hs : jsString body.phone = some phoneText) :
    jsString (jsOr body.phone (.str "")) = some phoneText ∧
    jsLength (replaceAllWithEmpty (fun c => !isAsciiDigit c) (trim phoneText)) =
      digitCount phoneText ∧
    (validateOrder body menu = .refused "Enter a valid phone number (7-15 digits)" ↔
      ¬ (7 ≤ digitCount phoneText ∧ digitCount phoneText ≤ 15)) ∧
    (7 ≤ digitCount phoneText ∧ digitCount phoneText ≤ 15 →
      match addressLongEnough body with
      | some true => ∃ r, validateOrder body menu = .passed r
      | some false => validateOrder body menu = .refused "Address must be at least 5 characters"
      | none => validateOrder body menu = .threw) := by
  have hp : truthy body.phone = true := by
    simp only [allTruthy, Bool.and_eq_true] at h1
    exact h1.1.1.2
  have h5 : phoneDigitsInRange body =
      some (decide (7 ≤ digitCount phoneText) && decide (digitCount phoneText ≤ 15)) := by
    rw [phoneDigitsInRange, hs]; rfl
  refine ⟨by rw [jsOr_of_truthy hp, hs], phoneDigits_length _, ?_, ?_⟩
  · rw [validateOrder_eq, h5]
    cases hf : menu.find? (fun m => JsVal.str m.name == body.item) with
    | none => rw [(itemOnMenu_eq_false_iff menu body).mpr hf] at h3; cases h3
    | some m =>
      by_cases hd : 7 ≤ digitCount phoneText ∧ digitCount phoneText ≤ 15
      · simp only [h1, h2, h4, hd.1, hd.2, decide_True, Bool.and_self, Bool.true_eq_false,
          if_false, hd, not_true_eq_false, iff_false]
        rcases addressLongEnough body with _ | _ | _ <;> simp
      · have hb : (decide (7 ≤ digitCount phoneText) &&
            decide (digitCount phoneText ≤ 15)) = false := by
          simpa using fun h => by omega
        simp [h1, h2, h4, hb, hd]
  · intro hd
    have hb : (decide (7 ≤ digitCount phoneText) &&
        decide (digitCount phoneText ≤ 15)) = true := by
      simp [hd.1, hd.2]
    cases hf : menu.find? (fun m => JsVal.str m.name == body.item) with
    | none => rw [(itemOnMenu_eq_false_iff menu body).mpr hf] at h3; cases h3
    | some m =>
      rcases h6 : addressLongEnough body with _ | _ | _
      · simp only
        rw [validateOrder_eq, h5, hb, h6]
        simp [h1, h2, h4, hf]
      · simp only
        rw [validateOrder_eq, h5, hb, h6]
        simp [h1, h2, h4, hf]
      · simp only
        rw [validateOrder_eq, h5, hb, h6]
        simp [h1, h2, h4, hf]

/-- C4 at the two phones of the specification: "123" is refused with the
message of the phone rule, "+1 (555) 123-4567", with its 11 digits, is
accepted. -/
theorem phone_check_digit_count_witness :
    validateOrder { exBody with phone := .str "123" } initialMenu =
        .refused "Enter a valid phone number (7-15 digits)" ∧
      digitCount "+1 (555) 123-4567".data = 11 ∧
      ∃ r, validateOrder exBody initialMenu = .passed r :=
  ⟨(phone_check_digit_count { exBody with phone := .str "123" } initialMenu "123".data
      (by decide) (by decide) (by decide) (by decide) (by decide)).2.2.1.mpr (by decide),
    by decide,
    (phone_check_digit_count exBody initialMenu "+1 (555) 123-4567".data
      (by decide) (by decide) (by decide) (by decide) (by decide)).2.2.2 (by decide)⟩

/-! ## Order construction -/

theorem hasHexPrefix_takeWhile {s : List Char} (h : hasHexPrefix s = true) :
    s.takeWhile (isRadixDigit 10) = ['0'] := by
  unfold hasHexPrefix at h
  split at h
  · rfl
  · rfl
  · cases h

/-- A string that `parseInt(s, 10)` reads as a number of at least 1 is read as the same
number by `parseInt(s)`: a `0x` prefix, the one case where the two differ,
makes the decimal reading 0. -/
theorem parseInt_without_radix {s : List Char} {q : Int} (h : parseInt s 10 = .fin q)
    (hq : 1 ≤ q) : parseInt s 0 = .fin q := by
  unfold parseInt at h ⊢
  simp only [] at h ⊢
  generalize (if ((trimStart s).head? == some '-' || (trimStart s).head? == some '+') = true
    then (trimStart s).drop 1 else trimStart s) = t at h ⊢
  cases hx : hasHexPrefix t with
  | true =>
    have hz := hasHexPrefix_takeWhile hx
    simp [hz, radixValue, digitValue, toDouble_zero] at h
    omega
  | false =>
    simpa [hx] using h

set_option maxRecDepth 100000 in
/-- C2, as worded, fails: a quantity of 1 followed by 308 zeros passes
validation, the product of the price and the quantity is infinite, and the
order is stored and returned with `totalPrice` null next to a price of 1200
and a quantity that is a number. -/
theorem total_price_null_on_overflow :
    (∃ r, validateOrder hugeQuantityBody initialMenu = .passed r) ∧
      (createOrder initialMenu [] hugeQuantityBody 1700000000000 "2023-11-14T22:13:20.000Z"
          "2023-11-14T22:13:20.000Z" true).1 =
        .ok 201 (buildOrder hugeQuantityBody pizza (parsedQuantity hugeQuantityBody)
          hugeQuantity.data 1700000000000 "2023-11-14T22:13:20.000Z"
          "2023-11-14T22:13:20.000Z") ∧
      ((createOrder initialMenu [] hugeQuantityBody 1700000000000 "2023-11-14T22:13:20.000Z"
          "2023-11-14T22:13:20.000Z" true).2.map
        fun o => (o.price, o.quantity.isSome, o.totalPrice)) = [(1200, true, none)] := by
  refine ⟨⟨(pizza, parsedQuantity hugeQuantityBody), ?_⟩, ?_, ?_⟩ <;> decide

/-- C2 (amended): when a request passes validation and the JavaScript product
of the price and the validated quantity is finite, the order that is built,
returned with status 201 and appended to the orders when the write succeeds,
has a stored quantity equal to the validated one, a `totalPrice` equal to the
JavaScript product `price * quantity` of its own fields, which is the exact
product when that is below `2 ^ 53` in magnitude, and the price and id of
the first menu item whose name is the requested item. -/
theorem created_order_total_price (menu : List MenuItem) (orders : List Order)
    (body : OrderBody) (now : Int) (createdAt updatedAt : String) (writeOk : Bool)
    (menuItem : MenuItem) (qty total : Int)
    (h : validateOrder body menu = .passed (menuItem, qty))
    (hfin : jsMul (.fin menuItem.price) (.fin qty) = .fin total) :
    ∃ o : Order,
      createOrder menu orders body now createdAt updatedAt writeOk =
        (if writeOk then (.ok 201 o, orders ++ [o])
          else (.fail 500 "Failed to save order", orders)) ∧
      o.quantity = some qty ∧ 1 ≤ qty ∧ o.totalPrice = some total ∧
      jsMul (.fin o.price) (.fin qty) = .fin total ∧
      ((o.price * qty).natAbs < 2 ^ 53 → total = o.price * qty) ∧
      menuItem ∈ menu ∧ body.item = .str menuItem.name ∧
      menu.find? (fun m => JsVal.str m.name == body.item) = some menuItem ∧
      o.price = menuItem.price ∧ o.itemId = menuItem.id := by
  obtain ⟨-, -, hf, ⟨text, ht, hp⟩, hq, -, -⟩ :=
    (validateOrder_passed_iff body menu menuItem qty).mp h
  refine ⟨buildOrder body menuItem qty text now createdAt updatedAt, ?_, ?_, hq, ?_, hfin, ?_,
    List.mem_of_find?_eq_some hf, ?_, hf, rfl, rfl⟩
  · simp only [createOrder, h, ht]
  · show jsonNumber (parseInt text 0) = some qty
    rw [parseInt_without_radix hp hq]
    rfl
  · show jsonNumber (jsMul (.fin menuItem.price) (.fin qty)) = some total
    rw [hfin]
    rfl
  · intro hlt
    have hexact : jsMul (.fin menuItem.price) (.fin qty) = .fin (menuItem.price * qty) :=
      toDouble_of_lt hlt
    rw [hexact] at hfin
    exact (JsNum.fin.inj hfin).symm
  · have := List.find?_some hf
    rw [beq_iff_eq] at this
    exact this.symm

/-- C2 at a concrete request: two pizzas, with a total of 2400. -/
theorem created_order_total_price_witness :
    ∃ o : Order,
      createOrder initialMenu [] exBody 1700000000000 "2023-11-14T22:13:20.000Z"
          "2023-11-14T22:13:20.000Z" true =
        (if true then (.ok 201 o, [] ++ [o])
          else (.fail 500 "Failed to save order", [])) ∧
      o.quantity = some 2 ∧ (1 : Int) ≤ 2 ∧ o.totalPrice = some 2400 ∧
      jsMul (.fin o.price) (.fin 2) = .fin 2400 ∧
      ((o.price * 2).natAbs < 2 ^ 53 → (2400 : Int) = o.price * 2) ∧
      pizza ∈ initialMenu ∧ exBody.item = .str pizza.name ∧
      initialMenu.find? (fun m => JsVal.str m.name == exBody.item) = some pizza ∧
      o.price = pizza.price ∧ o.itemId = pizza.id :=
  created_order_total_price initialMenu [] exBody 1700000000000 "2023-11-14T22:13:20.000Z"
    "2023-11-14T22:13:20.000Z" true pizza 2 2400 (by decide) (by decide)

/-! ## Status update -/

theorem findIndex_eq_none_iff {α : Type} (p : α → Bool) (l : List α) :
    findIndex p l = none ↔ ∀ x ∈ l, p x = false := by
  induction l with
  | nil => simp [findIndex]
  | cons x xs ih =>
    cases hx : p x with
    | true => simp [findIndex, hx]
    | false => simp [findIndex, hx, ih]

theorem findIndex_eq_some {α : Type} (p : α → Bool) (l : List α) (i : Nat)
    (h : findIndex p l = some i) :
    ∃ x, l[i]? = some x ∧ p x = true ∧ ∀ j y, j < i → l[j]? = some y → p y = false := by
  induction l generalizing i with
  | nil => simp [findIndex] at h
  | cons x xs ih =>
    cases hx : p x with
    | true =>
      simp only [findIndex, hx, if_true, Option.some.injEq] at h
      subst h
      exact ⟨x, by simp, hx, fun j y hj => absurd hj (Nat.not_lt_zero j)⟩
    | false =>
      simp only [findIndex, hx, Bool.false_eq_true, if_false, Option.map_eq_some'] at h
      obtain ⟨k, hk, rfl⟩ := h
      obtain ⟨y, hy, hpy, hlt⟩ := ih k hk
      refine ⟨y, by simpa using hy, hpy, ?_⟩
      intro j z hj hz
      cases j with
      | zero =>
        simp only [List.getElem?_cons_zero, Option.some.injEq] at hz
        subst hz
        exact hx
      | succ j =>
        simp only [List.getElem?_cons_succ] at hz
        exact hlt j z (by omega) hz

theorem truthy_of_valid {status : JsVal} (h : status ∈ validStatuses) : truthy status = true := by
  have hall : ∀ s ∈ validStatuses, truthy s = true := by decide
  exact hall status h

theorem numEq_iff (n : Int) (m : JsNum) : numEq n m = true ↔ m = .fin n := by
  unfold numEq
  exact beq_iff_eq

/-- The status update, case by case. -/
theorem updateStatus_eq (orders : List Order) (idParam : String) (status : JsVal)
    (now : String) (writeOk : Bool) :
    (status ∉ validStatuses →
      updateStatus orders idParam status now writeOk =
        (.fail 400 "Valid status is required", orders)) ∧
    (status ∈ validStatuses → (∀ o ∈ orders, parseInt idParam.data 0 ≠ .fin o.id) →
      updateStatus orders idParam status now writeOk = (.fail 404 "Order not found", orders)) ∧
    (status ∈ validStatuses → (∃ o ∈ orders, parseInt idParam.data 0 = .fin o.id) →
      ∃ i o, orders[i]? = some o ∧ parseInt idParam.data 0 = .fin o.id ∧
        (∀ (j : Nat) (y : Order), j < i → orders[j]? = some y →
          parseInt idParam.data 0 ≠ .fin y.id) ∧
        updateStatus orders idParam status now writeOk =
          if writeOk then
            (.ok 200 { o with status := status, updatedAt := now },
              orders.set i { o with status := status, updatedAt := now })
          else (.fail 500 "Failed to update order", orders)) := by
  refine ⟨?_, ?_, ?_⟩
  · intro h
    simp [updateStatus, h]
  · intro h hno
    have hnone : findIndex (fun o => numEq o.id (parseInt idParam.data 0)) orders = none := by
      rw [findIndex_eq_none_iff]
      intro o ho
      cases hq : numEq o.id (parseInt idParam.data 0) with
      | false => rfl
      | true => exact absurd ((numEq_iff _ _).mp hq) (hno o ho)
    simp [updateStatus, h, truthy_of_valid h, hnone]
  · rintro h ⟨o, ho, hid⟩
    cases hfi : findIndex (fun o => numEq o.id (parseInt idParam.data 0)) orders with
    | none =>
      have := (findIndex_eq_none_iff _ _).mp hfi o ho
      rw [(numEq_iff _ _).mpr hid] at this
      cases this
    | some i =>
      obtain ⟨x, hx, hpx, hlt⟩ := findIndex_eq_some _ _ _ hfi
      refine ⟨i, x, hx, (numEq_iff _ _).mp hpx, ?_, ?_⟩
      · intro j y hj hy hq
        have := hlt j y hj hy
        rw [(numEq_iff _ _).mpr hq] at this
        cases this
      · simp [updateStatus, h, truthy_of_valid h, hfi, hx]

/-- C5, as worded, fails: with a valid status and an order of the requested
id, the update does not succeed when the write to the store fails; the reply
is 500 "Failed to update order" and the orders are unchanged. -/
theorem updateStatus_write_failure :
    JsVal.str "delivered" ∈ validStatuses ∧
      (∃ o ∈ [exOrder, exOrder2], parseInt "1700000001000".data 0 = .fin o.id) ∧
      updateStatus [exOrder, exOrder2] "1700000001000" (.str "delivered")
          "2023-11-14T23:00:00.000Z" false =
        (.fail 500 "Failed to update order", [exOrder, exOrder2]) := by
  decide

/-- C5 (amended): a status that is not one of the six is refused with 400
"Valid status is required", whether or not the order exists, and the orders
are unchanged; a valid status for an id no order has is refused with 404
"Order not found" and the orders are unchanged; a valid status for an id
some order has is answered, when the write to the store succeeds, with
status 200 and an order of that id whose status is the new one, which then
stands in the orders, and, when the write fails, with 500 "Failed to update
order" and unchanged orders.  The id is the number `parseInt` reads from the
route parameter. -/
theorem updateStatus_outcomes (orders : List Order) (idParam : String) (status : JsVal)
    (now : String) (writeOk : Bool) :
    (status ∉ validStatuses →
      updateStatus orders idParam status now writeOk =
        (.fail 400 "Valid status is required", orders)) ∧
    (status ∈ validStatuses → (∀ o ∈ orders, parseInt idParam.data 0 ≠ .fin o.id) →
      updateStatus orders idParam status now writeOk = (.fail 404 "Order not found", orders)) ∧
    (status ∈ validStatuses → (∃ o ∈ orders, parseInt idParam.data 0 = .fin o.id) →
      ∃ (o : Order) (res : List Order),
        updateStatus orders idParam status now writeOk =
          (if writeOk then (.ok 200 o, res)
            else (.fail 500 "Failed to update order", orders)) ∧
        o.status = status ∧ parseInt idParam.data 0 = .fin o.id ∧
        o ∈ res ∧ res.length = orders.length) := by
  refine ⟨(updateStatus_eq orders idParam status now writeOk).1,
    (updateStatus_eq orders idParam status now writeOk).2.1, ?_⟩
  intro h hex
  obtain ⟨i, o, hi, hid, -, heq⟩ := (updateStatus_eq orders idParam status now writeOk).2.2 h hex
  refine ⟨_, _, heq, rfl, hid, ?_, List.length_set _ _ _⟩
  have hlt : i < orders.length := by
    rcases Nat.lt_or_ge i orders.length with h | h
    · exact h
    · rw [List.getElem?_eq_none h] at hi; cases hi
  exact List.mem_iff_getElem?.mpr ⟨i, by simp [List.getElem?_set, hlt]⟩

/-- C5 at the statuses of the specification: "shipped" is refused, "delivered"
for a missing order gives 404, and "delivered" for an existing order, here
with the write succeeding, gives 200 and that status. -/
theorem updateStatus_outcomes_witness :
    updateStatus [exOrder, exOrder2] "1700000001000" (.str "shipped")
        "2023-11-14T23:00:00.000Z" true =
      (.fail 400 "Valid status is required", [exOrder, exOrder2]) ∧
    updateStatus [exOrder, exOrder2] "42" (.str "delivered") "2023-11-14T23:00:00.000Z" true =
      (.fail 404 "Order not found", [exOrder, exOrder2]) ∧
    ∃ (o : Order) (res : List Order),
      updateStatus [exOrder, exOrder2] "1700000001000" (.str "delivered")
          "2023-11-14T23:00:00.000Z" true =
        (if true then (.ok 200 o, res)
          else (.fail 500 "Failed to update order", [exOrder, exOrder2])) ∧
      o.status = .str "delivered" ∧ parseInt "1700000001000".data 0 = .fin o.id ∧
      o ∈ res ∧ res.length = [exOrder, exOrder2].length :=
  ⟨(updateStatus_outcomes [exOrder, exOrder2] "1700000001000" (.str "shipped")
      "2023-11-14T23:00:00.000Z" true).1 (by decide),
    (updateStatus_outcomes [exOrder, exOrder2] "42" (.str "delivered")
      "2023-11-14T23:00:00.000Z" true).2.1 (by decide) (by decide),
    (updateStatus_outcomes [exOrder, exOrder2] "1700000001000" (.str "delivered")
      "2023-11-14T23:00:00.000Z" true).2.2 (by decide) ⟨exOrder2, by decide, by decide⟩⟩

/-- The id of the route is read as a double: `9007199254740993` is the id
`9007199254740992`. -/
theorem parseInt_rounds_route_id :
    parseInt "9007199254740993".data 0 = .fin 9007199254740992 ∧
      (deleteOrder [bigIdOrder] "9007199254740993" true).2 = [] := by
  decide

/-! ## Deletion -/

/-- C6, as worded, fails: with an order of the requested id, the deletion
does not succeed when the write to the store fails; the reply is 500 "Failed
to delete order" and the orders are unchanged. -/
theorem deleteOrder_write_failure :
    (∃ o ∈ [exOrder, exOrder2], parseInt "1700000000000".data 0 = .fin o.id) ∧
      deleteOrder [exOrder, exOrder2] "1700000000000" false =
        (.fail 500 "Failed to delete order", [exOrder, exOrder2]) := by
  decide

/-- C6 (amended): for an id no order has, deletion answers 404 "Order not
found" and the orders are unchanged; for an id at least one order has,
deletion answers, when the write to the store succeeds, 200 and what is left
has no order with that id and keeps every other order, in the original
relative order, and, when the write fails, 500 "Failed to delete order" with
the orders unchanged.  The id is the number `parseInt` reads from the route
parameter. -/
theorem deleteOrder_outcomes (orders : List Order) (idParam : String) (writeOk : Bool) :
    ((∀ o ∈ orders, parseInt idParam.data 0 ≠ .fin o.id) →
      deleteOrder orders idParam writeOk = (.fail 404 "Order not found", orders)) ∧
    ((∃ o ∈ orders, parseInt idParam.data 0 = .fin o.id) →
      ∃ res : List Order,
        deleteOrder orders idParam writeOk =
          (if writeOk then (.ok 200 (), res)
            else (.fail 500 "Failed to delete order", orders)) ∧
        (∀ o ∈ res, parseInt idParam.data 0 ≠ .fin o.id) ∧
        res.Sublist orders ∧
        (∀ o : Order, parseInt idParam.data 0 ≠ .fin o.id → res.count o = orders.count o) ∧
        res.length < orders.length) := by
  constructor
  · intro h
    have hf : orders.filter (fun o => !numEq o.id (parseInt idParam.data 0)) = orders := by
      rw [List.filter_eq_self]
      intro o ho
      cases hq : numEq o.id (parseInt idParam.data 0) with
      | false => rfl
      | true => exact absurd ((numEq_iff _ _).mp hq) (h o ho)
    simp [deleteOrder, hf]
  · rintro ⟨o, ho, hid⟩
    have hlt : (orders.filter (fun o => !numEq o.id (parseInt idParam.data 0))).length <
        orders.length := by
      rw [List.length_filter_lt_length_iff_exists]
      exact ⟨o, ho, by simp [(numEq_iff _ _).mpr hid]⟩
    have hne : (orders.length ==
        (orders.filter (fun o => !numEq o.id (parseInt idParam.data 0))).length) = false := by
      rw [beq_eq_false_iff_ne]; omega
    refine ⟨orders.filter (fun o => !numEq o.id (parseInt idParam.data 0)), ?_, ?_,
      List.filter_sublist _, ?_, hlt⟩
    · simp only [deleteOrder, hne, Bool.false_eq_true, if_false]
    · intro x hx hxid
      have := (List.mem_filter.mp hx).2
      rw [(numEq_iff _ _).mpr hxid] at this
      cases this
    · intro x hx
      apply List.count_filter
      cases hq : numEq x.id (parseInt idParam.data 0) with
      | false => rfl
      | true => exact absurd ((numEq_iff _ _).mp hq) hx

/-- C6 at concrete orders: deleting an id that is not there changes nothing,
deleting the first of two orders, here with the write succeeding, leaves the
second. -/
theorem deleteOrder_outcomes_witness :
    deleteOrder [exOrder, exOrder2] "42" true =
      (.fail 404 "Order not found", [exOrder, exOrder2]) ∧
    ∃ res : List Order,
      deleteOrder [exOrder, exOrder2] "1700000000000" true =
        (if true then (.ok 200 (), res)
          else (.fail 500 "Failed to delete order", [exOrder, exOrder2])) ∧
      (∀ o ∈ res, parseInt "1700000000000".data 0 ≠ .fin o.id) ∧
      res.Sublist [exOrder, exOrder2] ∧
      (∀ o : Order, parseInt "1700000000000".data 0 ≠ .fin o.id →
        res.count o = [exOrder, exOrder2].count o) ∧
      res.length < [exOrder, exOrder2].length :=
  ⟨(deleteOrder_outcomes [exOrder, exOrder2] "42" true).1 (by decide),
    (deleteOrder_outcomes [exOrder, exOrder2] "1700000000000" true).2
      ⟨exOrder, by decide, by decide⟩⟩

/-! ## Sorting -/

theorem insertByCmp_perm {α : Type} (cmp : α → α → Int) (x : α) (l : List α) :
    (insertByCmp cmp x l).Perm (x :: l) := by
  induction l with
  | nil => exact List.Perm.refl _
  | cons y ys ih =>
    unfold insertByCmp
    split
    · exact List.Perm.refl _
    · exact (ih.cons y).trans (List.Perm.swap x y ys)

theorem arraySort_perm {α : Type} (cmp : α → α → Int) (l : List α) :
    (arraySort cmp l).Perm l := by
  induction l with
  | nil => exact List.Perm.refl _
  | cons x xs ih => exact (insertByCmp_perm cmp x _).trans (ih.cons x)

theorem insertByCmp_pairwise {α : Type} (cmp : α → α → Int)
    (htot : ∀ a b, cmp a b ≤ 0 ∨ cmp b a ≤ 0)
    (htrans : ∀ a b c, cmp a b ≤ 0 → cmp b c ≤ 0 → cmp a c ≤ 0) (x : α) (l : List α)
    (hl : l.Pairwise fun a b => cmp a b ≤ 0) :
    (insertByCmp cmp x l).Pairwise fun a b => cmp a b ≤ 0 := by
  induction l with
  | nil => simp [insertByCmp]
  | cons y ys ih =>
    rw [List.pairwise_cons] at hl
    unfold insertByCmp
    split
    · rename_i hxy
      refine List.pairwise_cons.mpr ⟨?_, List.pairwise_cons.mpr hl⟩
      intro z hz
      rcases List.mem_cons.mp hz with rfl | hz
      · exact hxy
      · exact htrans _ _ _ hxy (hl.1 z hz)
    · rename_i hxy
      have hyx : cmp y x ≤ 0 := (htot x y).resolve_left hxy
      refine List.pairwise_cons.mpr ⟨?_, ih hl.2⟩
      intro z hz
      rcases List.mem_cons.mp ((insertByCmp_perm cmp x ys).subset hz) with rfl | hz
      · exact hyx
      · exact hl.1 z hz

theorem arraySort_pairwise {α : Type} (cmp : α → α → Int)
    (htot : ∀ a b, cmp a b ≤ 0 ∨ cmp b a ≤ 0)
    (htrans : ∀ a b c, cmp a b ≤ 0 → cmp b c ≤ 0 → cmp a c ≤ 0) (l : List α) :
    (arraySort cmp l).Pairwise fun a b => cmp a b ≤ 0 := by
  induction l with
  | nil => exact List.Pairwise.nil
  | cons x xs ih => exact insertByCmp_pairwise cmp htot htrans x _ ih

/-- Inserting does not move an element past one it compares equal to under `p`. -/
theorem insertByCmp_filter {α : Type} (cmp : α → α → Int) (p : α → Bool) (x : α)
    (h : ∀ y, p x = true → p y = true → cmp x y ≤ 0) (l : List α) :
    (insertByCmp cmp x l).filter p = (x :: l).filter p := by
  induction l with
  | nil => rfl
  | cons y ys ih =>
    unfold insertByCmp
    split
    · rfl
    · rename_i hxy
      rw [List.filter_cons, ih]
      cases hx : p x with
      | false => simp [List.filter_cons, hx]
      | true =>
        cases hy : p y with
        | false => simp [List.filter_cons, hx, hy]
        | true => exact absurd (h y hx hy) hxy

/-- Stability: the elements selected by a predicate whose members compare as
equal keep their relative order. -/
theorem arraySort_filter {α : Type} (cmp : α → α → Int) (p : α → Bool)
    (h : ∀ x y, p x = true → p y = true → cmp x y ≤ 0) (l : List α) :
    (arraySort cmp l).filter p = l.filter p := by
  induction l with
  | nil => rfl
  | cons x xs ih =>
    show (insertByCmp cmp x (arraySort cmp xs)).filter p = _
    rw [insertByCmp_filter cmp p x (h x), List.filter_cons, List.filter_cons, ih]

theorem arraySort_of_pairwise {α : Type} (cmp : α → α → Int) (l : List α)
    (hl : l.Pairwise fun a b => cmp a b ≤ 0) : arraySort cmp l = l := by
  induction l with
  | nil => rfl
  | cons x xs ih =>
    rw [List.pairwise_cons] at hl
    show insertByCmp cmp x (arraySort cmp xs) = _
    rw [ih hl.2]
    cases xs with
    | nil => rfl
    | cons y ys => simp [insertByCmp, hl.1 y (List.mem_cons_self _ _)]

/-- Two lists sorted by non-increasing key that agree on every class of equal
keys are the same list. -/
theorem sorted_stable_unique {α : Type} (key : α → Nat) (l₁ l₂ : List α)
    (h₁ : l₁.Pairwise fun a b => key b ≤ key a) (h₂ : l₂.Pairwise fun a b => key b ≤ key a)
    (hc : ∀ k, l₁.filter (fun a => decide (key a = k)) = l₂.filter (fun a => decide (key a = k))) :
    l₁ = l₂ := by
  induction l₁ generalizing l₂ with
  | nil =>
    cases l₂ with
    | nil => rfl
    | cons y ys =>
      have := hc (key y)
      simp [List.filter_cons] at this
  | cons x xs ih =>
    cases l₂ with
    | nil =>
      have := hc (key x)
      simp [List.filter_cons] at this
    | cons y ys =>
      rw [List.pairwise_cons] at h₁ h₂
      have hx : x ∈ y :: ys := by
        have hmem : x ∈ (x :: xs).filter (fun a => decide (key a = key x)) := by
          simp [List.filter_cons]
        rw [hc] at hmem
        exact (List.mem_filter.mp hmem).1
      have hy : y ∈ x :: xs := by
        have hmem : y ∈ (y :: ys).filter (fun a => decide (key a = key y)) := by
          simp [List.filter_cons]
        rw [← hc] at hmem
        exact (List.mem_filter.mp hmem).1
      have hxy : key x ≤ key y := by
        rcases List.mem_cons.mp hx with rfl | hx
        · exact Nat.le_refl _
        · exact h₂.1 x hx
      have hyx : key y ≤ key x := by
        rcases List.mem_cons.mp hy with rfl | hy
        · exact Nat.le_refl _
        · exact h₁.1 y hy
      have hk : key y = key x := Nat.le_antisymm hyx hxy
      have hhead := hc (key x)
      simp only [List.filter_cons, hk, decide_True, if_true, List.cons.injEq] at hhead
      obtain ⟨rfl, -⟩ := hhead
      congr 1
      apply ih ys h₁.2 h₂.2
      intro k
      have := hc k
      by_cases hkx : key x = k
      · simp only [List.filter_cons, hkx, decide_True, if_true, List.cons.injEq, true_and] at this
        exact this
      · simp only [List.filter_cons, hkx, decide_False, Bool.false_eq_true, if_false] at this
        exact this

/-- Whatever stable algorithm sorts by non-increasing key, it returns what
`arraySort` returns. -/
theorem arraySort_unique {α : Type} (key : α → Nat) (l out : List α)
    (hsorted : out.Pairwise fun a b => key b ≤ key a)
    (hstable : ∀ k, out.filter (fun a => decide (key a = k)) =
      l.filter (fun a => decide (key a = k))) :
    out = arraySort (fun a b => (key b : Int) - (key a : Int)) l := by
  apply sorted_stable_unique key _ _ hsorted
  · have := arraySort_pairwise (fun a b : α => (key b : Int) - (key a : Int))
      (fun a b => by dsimp only; omega) (fun a b c h1 h2 => by dsimp only at h1 h2 ⊢; omega) l
    exact this.imp (fun h => by omega)
  · intro k
    rw [hstable k]
    symm
    apply arraySort_filter
    intro x y hx hy
    simp only [decide_eq_true_eq] at hx hy
    dsimp only
    omega

/-! ## Statistics -/

theorem foldl_totalPrice (l : List Order) (init : JsNum) :
    l.foldl (fun sum order => jsAdd sum (toNumber order.totalPrice)) init =
      jsSumFrom init (l.map fun o => toNumber o.totalPrice) := by
  induction l generalizing init with
  | nil => rfl
  | cons o os ih => simp only [List.foldl_cons, List.map_cons, jsSumFrom, ih]

theorem sumTotalPrice_eq (l : List Order) :
    sumTotalPrice l = jsSumFrom (.fin 0) (l.map fun o => toNumber o.totalPrice) :=
  foldl_totalPrice l _

theorem popularEntry_eq_specEntry (orders : List Order) (m : MenuItem) :
    popularEntry orders m = specEntry orders m := by
  have hf : (fun o : Order => o.itemId == m.id) = fun o => decide (o.itemId = m.id) := by
    funext o
    by_cases h : o.itemId = m.id <;> simp [h]
  simp only [popularEntry, specEntry, sumTotalPrice_eq, hf, List.countP_eq_length_filter]

/-- C7: `popularItems` is a permutation of one entry per menu item, each with
the name of the item, the number of orders for its id and the sum of their
`totalPrice`; it is sorted by non-increasing number of orders; entries with
the same number of orders keep their catalog order; and with three orders of
A, five of B and three of C in catalog order A, B, C it is B, A, C. -/
theorem popularItems_sorted_stable :
    (∀ (menu : List MenuItem) (orders : List Order),
      (popularItems menu orders).Perm (menu.map (specEntry orders)) ∧
      (popularItems menu orders).Pairwise (fun a b => b.orders ≤ a.orders) ∧
      ∀ k : Nat, (popularItems menu orders).filter (fun e => decide (e.orders = k)) =
        (menu.map (specEntry orders)).filter (fun e => decide (e.orders = k))) ∧
    abcMenu.map (specEntry abcOrders) =
      [⟨"A", 3, .fin 7200⟩, ⟨"B", 5, .fin 12000⟩, ⟨"C", 3, .fin 7200⟩] ∧
    popularItems abcMenu abcOrders =
      [⟨"B", 5, .fin 12000⟩, ⟨"A", 3, .fin 7200⟩, ⟨"C", 3, .fin 7200⟩] := by
  refine ⟨?_, by decide, by decide⟩
  intro menu orders
  have hmap : menu.map (popularEntry orders) = menu.map (specEntry orders) :=
    List.map_congr_left fun m _ => popularEntry_eq_specEntry orders m
  unfold popularItems
  rw [hmap]
  refine ⟨arraySort_perm _ _, ?_, ?_⟩
  · have := arraySort_pairwise (fun a b : PopularItem => (b.orders : Int) - (a.orders : Int))
      (fun a b => by dsimp only; omega) (fun a b c h1 h2 => by dsimp only at h1 h2 ⊢; omega)
      (menu.map (specEntry orders))
    exact this.imp (fun h => by omega)
  · intro k
    apply arraySort_filter
    intro x y hx hy
    simp only [decide_eq_true_eq] at hx hy
    dsimp only
    omega

/-- C8: with no orders, the statistics are zero orders, zero revenue, zero
for each of the six statuses, and one entry per menu item, in catalog order,
with zero orders and zero revenue. -/
theorem computeStats_no_orders (menu : List MenuItem) :
    computeStats menu [] =
      { totalOrders := 0
        totalRevenue := .fin 0
        ordersByStatus :=
          { pending := 0, confirmed := 0, preparing := 0, out_for_delivery := 0,
            delivered := 0, cancelled := 0 }
        popularItems := menu.map fun m => { name := m.name, orders := 0, revenue := .fin 0 } } := by
  have hentry : menu.map (popularEntry []) =
      menu.map fun m => ({ name := m.name, orders := 0, revenue := .fin 0 } : PopularItem) :=
    List.map_congr_left fun m _ => rfl
  have hsorted : (menu.map fun m =>
      ({ name := m.name, orders := 0, revenue := .fin 0 } : PopularItem)).Pairwise
      fun a b => (b.orders : Int) - (a.orders : Int) ≤ 0 := by
    rw [List.pairwise_map]
    exact List.pairwise_of_forall fun _ _ => by simp
  simp only [computeStats, popularItems, hentry, arraySort_of_pairwise _ _ hsorted]
  rfl

/-! ## Consistency of the statistics -/

theorem sum_map_ite_absent {M : Type} [AddCommMonoid M] (menu : List MenuItem) (x : Int)
    (hx : ∀ m ∈ menu, m.id ≠ x) (c : M) :
    (menu.map fun m => if x = m.id then c else 0).sum = 0 := by
  induction menu with
  | nil => rfl
  | cons m ms ih =>
    have hm : ¬ x = m.id := fun h => hx m (List.mem_cons_self _ _) h.symm
    simp [hm, ih (fun m' hm' => hx m' (List.mem_cons_of_mem _ hm'))]

/-- An id that is the id of a menu item, in a menu without repeated ids, is
the id of exactly one item. -/
theorem sum_map_ite_single {M : Type} [AddCommMonoid M] (menu : List MenuItem)
    (hid : (menu.map fun m => m.id).Nodup) (x : Int) (hx : ∃ m ∈ menu, m.id = x) (c : M) :
    (menu.map fun m => if x = m.id then c else 0).sum = c := by
  induction menu with
  | nil => obtain ⟨m, hm, -⟩ := hx; cases hm
  | cons m ms ih =>
    rw [List.map_cons, List.nodup_cons] at hid
    by_cases hm : x = m.id
    · have habs : ∀ m' ∈ ms, m'.id ≠ x := by
        intro m' hm' h
        exact hid.1 (List.mem_map.mpr ⟨m', hm', by rw [h, hm]⟩)
      simp [hm, sum_map_ite_absent ms m.id (fun m' hm' => hm ▸ habs m' hm') c]
    · have hx' : ∃ m' ∈ ms, m'.id = x := by
        obtain ⟨m', hm', h⟩ := hx
        rcases List.mem_cons.mp hm' with rfl | hm'
        · exact absurd h.symm hm
        · exact ⟨m', hm', h⟩
      simp [hm, ih hid.2 hx']

/-- Summing a quantity per menu item over the orders of that item counts every
order once, when ids are distinct and every order refers to a menu item. -/
theorem sum_by_item {M : Type} [AddCommMonoid M] (g : Order → M) (menu : List MenuItem)
    (orders : List Order) (hid : (menu.map fun m => m.id).Nodup)
    (href : ∀ o ∈ orders, ∃ m ∈ menu, m.id = o.itemId) :
    (menu.map fun m => ((orders.filter fun o => decide (o.itemId = m.id)).map g).sum).sum =
      (orders.map g).sum := by
  induction orders with
  | nil => simp
  | cons o os ih =>
    have hstep : ∀ m : MenuItem,
        (((o :: os).filter fun o => decide (o.itemId = m.id)).map g).sum =
          (if o.itemId = m.id then g o else 0) +
            ((os.filter fun o => decide (o.itemId = m.id)).map g).sum := by
      intro m
      by_cases h : o.itemId = m.id <;> simp [List.filter_cons, h]
    simp only [hstep, List.sum_map_add, List.map_cons, List.sum_cons]
    rw [sum_map_ite_single menu hid o.itemId (href o (List.mem_cons_self _ _)) (g o),
      ih (fun o' ho' => href o' (List.mem_cons_of_mem _ ho'))]

theorem countP_eq_sum_ones (p : Order → Bool) (l : List Order) :
    l.countP p = ((l.filter p).map fun _ => 1).sum := by
  rw [List.countP_eq_length_filter]
  simp

/-- The indicator of one status among the six. -/
theorem status_indicator_sum :
    ∀ a ∈ validStatuses,
      (if a == JsVal.str "pending" then 1 else 0) + (if a == JsVal.str "confirmed" then 1 else 0) +
        (if a == JsVal.str "preparing" then 1 else 0) +
        (if a == JsVal.str "out_for_delivery" then 1 else 0) +
        (if a == JsVal.str "delivered" then 1 else 0) +
        (if a == JsVal.str "cancelled" then 1 else 0) = 1 := by
  decide

theorem countStatus_cons (o : Order) (os : List Order) (s : String) :
    countStatus (o :: os) s = (if o.status == JsVal.str s then 1 else 0) + countStatus os s := by
  unfold countStatus
  rw [List.filter_cons]
  split <;> simp [Nat.add_comm]

theorem status_counts_sum (orders : List Order) (hst : ∀ o ∈ orders, o.status ∈ validStatuses) :
    countStatus orders "pending" + countStatus orders "confirmed" +
      countStatus orders "preparing" + countStatus orders "out_for_delivery" +
      countStatus orders "delivered" + countStatus orders "cancelled" = orders.length := by
  induction orders with
  | nil => rfl
  | cons o os ih =>
    have h1 := status_indicator_sum o.status (hst o (List.mem_cons_self _ _))
    have h2 := ih (fun o' ho' => hst o' (List.mem_cons_of_mem _ ho'))
    simp only [countStatus_cons, List.length_cons]
    omega

/-- Adding integers whose magnitudes add up to less than `2 ^ 53` is exact. -/
theorem jsSumFrom_exact (l : List Int) (a : Int)
    (h : a.natAbs + (l.map Int.natAbs).sum < 2 ^ 53) :
    jsSumFrom (.fin a) (l.map JsNum.fin) = .fin (a + l.sum) := by
  induction l generalizing a with
  | nil => simp [jsSumFrom]
  | cons x xs ih =>
    simp only [List.map_cons, List.sum_cons] at h
    have hax : (a + x).natAbs ≤ a.natAbs + x.natAbs := Int.natAbs_add_le a x
    have hstep : jsAdd (.fin a) (.fin x) = .fin (a + x) := toDouble_of_lt (by omega)
    simp only [List.map_cons, jsSumFrom, hstep, List.sum_cons]
    rw [ih (a + x) (by omega), Int.add_assoc]

theorem sum_natAbs_filter_le (p : Order → Bool) (l : List Order) :
    ((l.filter p).map fun o => (priceValue o).natAbs).sum ≤
      (l.map fun o => (priceValue o).natAbs).sum := by
  induction l with
  | nil => simp
  | cons o os ih =>
    rw [List.filter_cons]
    split
    · simp only [List.map_cons, List.sum_cons]; omega
    · simp only [List.map_cons, List.sum_cons]; omega

theorem toNumber_totalPrice (o : Order) : toNumber o.totalPrice = .fin (priceValue o) := by
  unfold priceValue toNumber
  cases o.totalPrice <;> rfl

/-- The JavaScript sum of the `totalPrice` of orders is their exact sum when
the magnitudes add up to less than `2 ^ 53`. -/
theorem sumTotalPrice_exact (l : List Order)
    (h : (l.map fun o => (priceValue o).natAbs).sum < 2 ^ 53) :
    jsSumFrom (.fin 0) (l.map fun o => toNumber o.totalPrice) =
      .fin (l.map priceValue).sum := by
  have hmap : (l.map fun o => toNumber o.totalPrice) = (l.map priceValue).map JsNum.fin := by
    rw [List.map_map]
    exact List.map_congr_left fun o _ => toNumber_totalPrice o
  rw [hmap, jsSumFrom_exact _ 0 (by simpa [List.map_map, Function.comp_def] using h)]
  simp

/-- C10, as worded, fails: with the initial menu and three orders the API
accepts, one of 10000000000000000 pizzas and two of one burger, the
hypotheses of the claim hold, `totalRevenue` is 12000000000000000000 because
each added 600 is rounded away, while the revenues of `popularItems` are
1200, 12000000000000000000 and 0, whose JavaScript sum is
12000000000000002048. -/
theorem stats_revenue_rounded_away :
    (initialMenu.map fun m => m.id).Nodup ∧
      (∀ o ∈ roundedOrders, ∃ m ∈ initialMenu, m.id = o.itemId) ∧
      (∀ o ∈ roundedOrders, orderInvariant o) ∧
      (computeStats initialMenu roundedOrders).totalRevenue = .fin 12000000000000000000 ∧
      ((computeStats initialMenu roundedOrders).popularItems.map fun e => e.revenue) =
        [.fin 1200, .fin 12000000000000000000, .fin 0] ∧
      jsSumFrom (.fin 0)
          ((computeStats initialMenu roundedOrders).popularItems.map fun e => e.revenue) =
        .fin 12000000000000002048 := by
  decide

/-- C10 (amended): when the ids of the menu are pairwise distinct, every
order refers to a menu item, every status is one of the six, and the
`totalPrice` values, which are integers, have magnitudes that add up to less
than `2 ^ 53`, the revenues of `popularItems` are integers whose sum is
`totalRevenue`, the order counts of `popularItems` add up to `totalOrders`,
and the six counts of `ordersByStatus` add up to `totalOrders`. -/
theorem stats_consistent (menu : List MenuItem) (orders : List Order)
    (hid : (menu.map fun m => m.id).Nodup)
    (href : ∀ o ∈ orders, ∃ m ∈ menu, m.id = o.itemId)
    (hst : ∀ o ∈ orders, o.status ∈ validStatuses)
    (hsafe : (orders.map fun o => (priceValue o).natAbs).sum < 2 ^ 53) :
    (∃ revenues : List Int,
        ((computeStats menu orders).popularItems.map fun e => e.revenue) =
          revenues.map JsNum.fin ∧
        (computeStats menu orders).totalRevenue = .fin revenues.sum) ∧
      ((computeStats menu orders).popularItems.map fun e => e.orders).sum =
        (computeStats menu orders).totalOrders ∧
      (computeStats menu orders).ordersByStatus.pending +
          (computeStats menu orders).ordersByStatus.confirmed +
          (computeStats menu orders).ordersByStatus.preparing +
          (computeStats menu orders).ordersByStatus.out_for_delivery +
          (computeStats menu orders).ordersByStatus.delivered +
          (computeStats menu orders).ordersByStatus.cancelled =
        (computeStats menu orders).totalOrders := by
  have hperm : (popularItems menu orders).Perm (menu.map (specEntry orders)) := by
    unfold popularItems
    rw [List.map_congr_left fun m _ => popularEntry_eq_specEntry orders m]
    exact arraySort_perm _ _
  have hrev : ∀ m : MenuItem, (specEntry orders m).revenue =
      .fin ((orders.filter fun o => decide (o.itemId = m.id)).map priceValue).sum := by
    intro m
    exact sumTotalPrice_exact _ (Nat.lt_of_le_of_lt (sum_natAbs_filter_le _ _) hsafe)
  have hentries : ∀ e ∈ popularItems menu orders,
      e.revenue = .fin ((jsonNumber e.revenue).getD 0) := by
    intro e he
    obtain ⟨m, -, rfl⟩ := List.mem_map.mp (hperm.subset he)
    rw [hrev m]
    rfl
  refine ⟨⟨(popularItems menu orders).map fun e => (jsonNumber e.revenue).getD 0, ?_, ?_⟩, ?_,
    status_counts_sum orders hst⟩
  · show (popularItems menu orders).map (fun e => e.revenue) = _
    rw [List.map_map]
    exact List.map_congr_left fun e he => hentries e he
  · show sumTotalPrice orders = _
    rw [sumTotalPrice_eq, sumTotalPrice_exact orders hsafe, (hperm.map _).sum_eq, List.map_map,
      ← sum_by_item priceValue menu orders hid href]
    congr 2
    apply List.map_congr_left
    intro m _
    simp only [Function.comp_apply, hrev m]
    rfl
  · show ((popularItems menu orders).map fun e => e.orders).sum = orders.length
    rw [(hperm.map _).sum_eq, List.map_map]
    have h := sum_by_item (fun _ => (1 : Nat)) menu orders hid href
    simp only [List.map_const', List.sum_replicate, smul_eq_mul, mul_one] at h
    rw [← h]
    apply congrArg
    apply List.map_congr_left
    intro m _
    simp [specEntry, List.countP_eq_length_filter]

/-- With two menu items of the same id an order is counted twice in `popularItems`. -/
theorem stats_count_twice_with_repeated_id :
    ((computeStats
        [ { id := 1, name := "A", price := 100, image := "", description := "" },
          { id := 1, name := "B", price := 200, image := "", description := "" } ]
        [orderFor 1 1]).popularItems.map fun e => e.orders).sum = 2 ∧
      (computeStats
        [ { id := 1, name := "A", price := 100, image := "", description := "" },
          { id := 1, name := "B", price := 200, image := "", description := "" } ]
        [orderFor 1 1]).totalOrders = 1 := by
  decide

/-- An order whose `itemId` is not on the menu is counted in no entry of `popularItems`. -/
theorem stats_miss_order_off_menu :
    ((computeStats abcMenu [orderFor 1 9]).popularItems.map fun e => e.orders).sum = 0 ∧
      (computeStats abcMenu [orderFor 1 9]).totalOrders = 1 := by
  decide

/-- C10 at the catalog A, B, C with three, five and three orders of 2400 each. -/
theorem stats_consistent_witness :
    (∃ revenues : List Int,
        ((computeStats abcMenu abcOrders).popularItems.map fun e => e.revenue) =
          revenues.map JsNum.fin ∧
        (computeStats abcMenu abcOrders).totalRevenue = .fin revenues.sum) ∧
      ((computeStats abcMenu abcOrders).popularItems.map fun e => e.orders).sum =
        (computeStats abcMenu abcOrders).totalOrders ∧
      (computeStats abcMenu abcOrders).ordersByStatus.pending +
          (computeStats abcMenu abcOrders).ordersByStatus.confirmed +
          (computeStats abcMenu abcOrders).ordersByStatus.preparing +
          (computeStats abcMenu abcOrders).ordersByStatus.out_for_delivery +
          (computeStats abcMenu abcOrders).ordersByStatus.delivered +
          (computeStats abcMenu abcOrders).ordersByStatus.cancelled =
        (computeStats abcMenu abcOrders).totalOrders :=
  stats_consistent abcMenu abcOrders (by decide) (by decide) (by decide) (by decide)

/-! ## The invariant of the orders -/

theorem mem_of_getElem?_eq_some {α : Type} {l : List α} {i : Nat} {a : α}
    (h : l[i]? = some a) : a ∈ l :=
  List.mem_iff_getElem?.mpr ⟨i, h⟩

/-- What a status update leaves in the orders: the orders as they were, or the
orders with the first order of the requested id given the new status and
time stamp. -/
theorem updateStatus_orders (orders : List Order) (idParam : String) (status : JsVal)
    (now : String) (writeOk : Bool) :
    (updateStatus orders idParam status now writeOk).2 = orders ∨
      ∃ i o, status ∈ validStatuses ∧ orders[i]? = some o ∧
        parseInt idParam.data 0 = .fin o.id ∧
        (∀ (j : Nat) (y : Order), j < i → orders[j]? = some y →
          parseInt idParam.data 0 ≠ .fin y.id) ∧
        (updateStatus orders idParam status now writeOk).2 =
          orders.set i { o with status := status, updatedAt := now } := by
  by_cases hs : status ∈ validStatuses
  · by_cases hex : ∃ o ∈ orders, parseInt idParam.data 0 = .fin o.id
    · obtain ⟨i, o, hi, hid, hfirst, heq⟩ :=
        (updateStatus_eq orders idParam status now writeOk).2.2 hs hex
      cases writeOk with
      | false => left; rw [heq]; rfl
      | true => right; exact ⟨i, o, hs, hi, hid, hfirst, by rw [heq]; rfl⟩
    · left
      rw [(updateStatus_eq orders idParam status now writeOk).2.1 hs
        (fun o ho h => hex ⟨o, ho, h⟩)]
  · left
    rw [(updateStatus_eq orders idParam status now writeOk).1 hs]

set_option maxRecDepth 100000 in
/-- C9, as worded, fails: a creation request for a quantity of 1 followed by
308 zeros is accepted, and the order it appends to an empty collection has
`totalPrice` null, so it does not satisfy `totalPrice = price × quantity`. -/
theorem invariant_broken_by_overflow :
    (∀ o ∈ ([] : List Order), orderInvariant o) ∧
      ¬ ∀ o ∈ (createOrder initialMenu [] hugeQuantityBody 1700000000000
          "2023-11-14T22:13:20.000Z" "2023-11-14T22:13:20.000Z" true).2, orderInvariant o := by
  decide

/-- C9 (amended): if every stored order has one of the six statuses and a
`totalPrice` that is the JavaScript product `price * quantity` of its
fields, so does every order after any status update or deletion request,
successful or not, and after any creation request that fails or whose
product of price and validated quantity is finite; an order that has just
been created has status pending and is the last of the orders; and a status
update keeps the number of orders and changes at most one order, the first
one with the requested id, in nothing but its status and `updatedAt`. -/
theorem orders_invariant_preserved (menu : List MenuItem) (orders : List Order)
    (h : ∀ o ∈ orders, orderInvariant o) :
    (∀ (body : OrderBody) (now : Int) (createdAt updatedAt : String) (writeOk : Bool),
      ((∀ menuItem qty, validateOrder body menu = .passed (menuItem, qty) →
          ∃ total, jsMul (.fin menuItem.price) (.fin qty) = .fin total) →
        ∀ o ∈ (createOrder menu orders body now createdAt updatedAt writeOk).2,
          orderInvariant o) ∧
      ((∀ code o, (createOrder menu orders body now createdAt updatedAt writeOk).1 ≠ .ok code o) →
        (createOrder menu orders body now createdAt updatedAt writeOk).2 = orders) ∧
      ∀ code o, (createOrder menu orders body now createdAt updatedAt writeOk).1 = .ok code o →
        o.status = .str "pending" ∧
        (createOrder menu orders body now createdAt updatedAt writeOk).2 = orders ++ [o]) ∧
    (∀ (idParam : String) (status : JsVal) (now : String) (writeOk : Bool),
      (∀ o ∈ (updateStatus orders idParam status now writeOk).2, orderInvariant o) ∧
      (updateStatus orders idParam status now writeOk).2.length = orders.length ∧
      ∀ (i : Nat) (o o' : Order), orders[i]? = some o →
        (updateStatus orders idParam status now writeOk).2[i]? = some o' →
        o' = o ∨
          (o' = { o with status := status, updatedAt := now } ∧
            parseInt idParam.data 0 = .fin o.id ∧
            ∀ (j : Nat) (y : Order), j < i → orders[j]? = some y →
              parseInt idParam.data 0 ≠ .fin y.id)) ∧
    (∀ (idParam : String) (writeOk : Bool),
      ∀ o ∈ (deleteOrder orders idParam writeOk).2, orderInvariant o) := by
  refine ⟨?_, ?_, ?_⟩
  · intro body now createdAt updatedAt writeOk
    unfold createOrder
    cases hv : validateOrder body menu with
    | refused e => exact ⟨fun _ => h, fun _ => rfl, fun code o ho => by cases ho⟩
    | threw => exact ⟨fun _ => h, fun _ => rfl, fun code o ho => by cases ho⟩
    | passed r =>
      obtain ⟨menuItem, qty⟩ := r
      obtain ⟨-, -, -, ⟨text, ht, hp⟩, hq, -, -⟩ :=
        (validateOrder_passed_iff body menu menuItem qty).mp hv
      simp only [ht]
      cases writeOk with
      | false => exact ⟨fun _ => h, fun _ => rfl, fun code o ho => by cases ho⟩
      | true =>
        refine ⟨?_, ?_, ?_⟩
        · intro hfin o ho
          obtain ⟨total, htotal⟩ := hfin menuItem qty rfl
          rcases List.mem_append.mp ho with ho | ho
          · exact h o ho
          · rw [List.mem_singleton.mp ho]
            refine ⟨List.mem_cons_self _ _, ?_, ?_⟩
            · show (jsonNumber (parseInt text 0)).map _ =
                (jsonNumber (jsMul (.fin menuItem.price) (.fin qty))).map JsNum.fin
              rw [parseInt_without_radix hp hq, htotal]
              simp only [jsonNumber, Option.map_some']
              exact congrArg some htotal
            · show jsonNumber (jsMul (.fin menuItem.price) (.fin qty)) ≠ none
              rw [htotal]
              simp [jsonNumber]
        · intro hne
          exact absurd rfl (hne _ _)
        · intro code o ho
          simp only [if_true, Reply.ok.injEq] at ho
          obtain ⟨-, rfl⟩ := ho
          exact ⟨rfl, rfl⟩
  · intro idParam status now writeOk
    rcases updateStatus_orders orders idParam status now writeOk with
      heq | ⟨i, x, hs, hi, hid, hfirst, heq⟩
    · rw [heq]
      refine ⟨h, rfl, ?_⟩
      intro j o o' ho ho'
      left
      rw [ho] at ho'
      exact (Option.some.inj ho').symm
    · rw [heq]
      refine ⟨?_, List.length_set _ _ _, ?_⟩
      · intro o ho
        rcases List.mem_or_eq_of_mem_set ho with ho | rfl
        · exact h o ho
        · exact ⟨hs, (h x (mem_of_getElem?_eq_some hi)).2⟩
      · intro j o o' ho ho'
        by_cases hij : i = j
        · subst hij
          right
          rw [hi] at ho
          cases ho
          have hlt : i < orders.length := by
            rcases Nat.lt_or_ge i orders.length with hl | hl
            · exact hl
            · rw [List.getElem?_eq_none hl] at hi; cases hi
          rw [List.getElem?_set, if_pos rfl, if_pos hlt] at ho'
          exact ⟨(Option.some.inj ho').symm, hid, hfirst⟩
        · left
          rw [List.getElem?_set_ne hij, ho] at ho'
          exact (Option.some.inj ho').symm
  · intro idParam writeOk o ho
    apply h
    unfold deleteOrder at ho
    simp only at ho
    split at ho
    · exact ho
    · split at ho
      · exact (List.mem_filter.mp ho).1
      · exact ho

/-- C9 at two stored orders: they satisfy the invariant, and so do the orders
after a creation, after a status update and after a deletion. -/
theorem orders_invariant_preserved_witness :
    (∀ o ∈ [exOrder, exOrder2], orderInvariant o) ∧
    (∀ o ∈ (createOrder initialMenu [exOrder, exOrder2] exBody 1700000002000
        "2023-11-14T22:13:22.000Z" "2023-11-14T22:13:22.000Z" true).2, orderInvariant o) ∧
    (∀ o ∈ (updateStatus [exOrder, exOrder2] "1700000000000" (.str "delivered")
        "2023-11-14T23:00:00.000Z" true).2, orderInvariant o) ∧
    (∀ o ∈ (deleteOrder [exOrder, exOrder2] "1700000000000" true).2, orderInvariant o) :=
  ⟨by decide,
    ((orders_invariant_preserved initialMenu [exOrder, exOrder2] (by decide)).1 exBody
      1700000002000 "2023-11-14T22:13:22.000Z" "2023-11-14T22:13:22.000Z" true).1
      (fun menuItem qty hv => by
        have hpass : validateOrder exBody initialMenu = .passed (pizza, 2) := by decide
        rw [hpass] at hv
        obtain ⟨rfl, rfl⟩ := Prod.mk.inj (Checked.passed.inj hv)
        exact ⟨2400, by decide⟩),
    ((orders_invariant_preserved initialMenu [exOrder, exOrder2] (by decide)).2.1
      "1700000000000" (.str "delivered") "2023-11-14T23:00:00.000Z" true).1,
    (orders_invariant_preserved initialMenu [exOrder, exOrder2] (by decide)).2.2
      "1700000000000" true⟩

end Food
